import Mathlib

/-!
Front end of dirty-nairobi.

A shallow embedding of `src/frontend/src/components/MapComponent.js` (the cluster icon
function, the three effects with their cleanups, the fit-bounds policy, the popup
dispatch function, the rendered overlays, and the part of the Leaflet map the component
drives), of `handleFileSelect`, `validateForm` and `handleSubmit` of
`src/frontend/src/components/UploadForm.js`, and of the filter effect and the modal
callbacks of `src/frontend/src/App.js`.

Conventions.
* JavaScript numbers that carry coordinates are rationals (every finite double is one);
  the values `undefined`, `null` and `NaN` are separate constructors of `JsCoord`.
* An effect returns an `Outcome`: the component state it leaves behind, the calls it made
  on the map and the marker layer, and the exception that ended it, if one did.
* The host callback `onMarkerClick` is represented by the list of arguments it is called
  with.
* The form handlers return the form state they leave, with the toasts shown; the
  network answers of a submission are an argument of `handleSubmit`.
* The string methods `trim`, `length`, `includes` and `parseFloat` are defined on Unicode
  strings, parsing being exact; `toLowerCase` and `toUpperCase` are defined on texts of
  code points up to U+00FF and are `none` on other texts.
* Leaflet is a library outside the repository.  `updateMarkersEffectOn` is the update
  effect with the Leaflet methods it calls (`getBounds`, `setView`, `fitBounds`) as
  parameters; what is proved of the viewport policy is proved for all such methods.
  To run the effects on sample inputs an idealised map is used (`LeafletMap.getBounds`,
  `LeafletMap.setView`, `LeafletMap.fitBounds`, collected in `modelLeaflet`): a linear
  (equirectangular) projection at 256 * 2^zoom pixels per 360 degrees, integer zoom levels,
  no animation, and the zoom and centre clamps of `Map._limitZoom`, `Map._limitCenter` and
  `Map.getBoundsZoom` computed exactly.  The library projects with spherical Mercator in
  floating point, rounds the pixel origin of the view, clamps the centre by whole pixels
  and raises a fit zoom that lies within one percent of the next level; near the edge of
  a view or of the maximum bounds its viewport can therefore differ from the idealised
  one; what the viewport contains after a call is computed only on sample inputs that lie
  far from those edges.
-/

namespace DirtyNairobi

/-! ## Data model -/

/-- A JavaScript value used as a report identifier: an integer number or a string. -/
inductive JsId where
  | num (n : Int)
  | str (s : String)
  deriving DecidableEq, Repr

/-- The text a template literal produces for an identifier (`String(id)`): the decimal
digits of an integer, the string itself for a string. -/
def JsId.toText : JsId → String
  | .num n => toString n
  | .str s => s

/-- The strict equality `===` of JavaScript on identifiers: equal type and equal value. -/
def JsId.strictEq (a b : JsId) : Bool :=
  decide (a = b)

/-- The value found in a coordinate field of a report: absent (`undefined`), `null`, NaN
or a finite number.  Infinite values are not modelled. -/
inductive JsCoord where
  | undef
  | null
  | nan
  | num (q : ℚ)
  deriving DecidableEq

/-- A report as the component receives it in the `photos` prop. -/
structure Report where
  id : JsId
  latitude : JsCoord
  longitude : JsCoord
  description : String
  s3_url : String
  created_at : String
  deriving DecidableEq

/-- Both coordinate fields of the report hold a number other than NaN. -/
def Report.hasPosition (r : Report) : Bool :=
  match r.latitude, r.longitude with
  | .num _, .num _ => true
  | _, _ => false

/-- A geographical point (Leaflet `LatLng`). -/
structure LatLng where
  lat : ℚ
  lng : ℚ
  deriving DecidableEq

/-- The point a pair of coordinate values denotes, when both are numbers other than NaN. -/
def coordsPosition : JsCoord → JsCoord → Option LatLng
  | .num lat, .num lng => some ⟨lat, lng⟩
  | _, _ => none

/-- The position of a report, when it has one. -/
def Report.position (r : Report) : Option LatLng :=
  coordsPosition r.latitude r.longitude

/-- A latitude/longitude rectangle given by its south-west and north-east corners
(Leaflet `LatLngBounds`). -/
structure LatLngBounds where
  sw : LatLng
  ne : LatLng
  deriving DecidableEq

/-- The test `LatLngBounds.contains(latlng)`: both coordinates within the corners, edges included. -/
def LatLngBounds.contains (b : LatLngBounds) (p : LatLng) : Prop :=
  b.sw.lat ≤ p.lat ∧ p.lat ≤ b.ne.lat ∧ b.sw.lng ≤ p.lng ∧ p.lng ≤ b.ne.lng

instance (b : LatLngBounds) (p : LatLng) : Decidable (b.contains p) := by
  unfold LatLngBounds.contains
  infer_instance

/-- The rectangle `outer` covers the rectangle `inner`. -/
def LatLngBounds.includes (outer inner : LatLngBounds) : Prop :=
  outer.sw.lat ≤ inner.sw.lat ∧ inner.ne.lat ≤ outer.ne.lat ∧
    outer.sw.lng ≤ inner.sw.lng ∧ inner.ne.lng ≤ outer.ne.lng

instance (outer inner : LatLngBounds) : Decidable (outer.includes inner) := by
  unfold LatLngBounds.includes
  infer_instance

/-- The method `LatLngBounds.extend(latlng)` on a rectangle that already has corners. -/
def LatLngBounds.extend (b : LatLngBounds) (p : LatLng) : LatLngBounds :=
  { sw := ⟨min p.lat b.sw.lat, min p.lng b.sw.lng⟩
    ne := ⟨max p.lat b.ne.lat, max p.lng b.ne.lng⟩ }

/-- The constant `NAIROBI_CENTER`. -/
def NAIROBI_CENTER : LatLng := ⟨-12921 / 10000, 368219 / 10000⟩

/-- The constant `NAIROBI_BOUNDS`: south-west `[-1.5, 36.5]`, north-east `[-1.0, 37.2]`. -/
def NAIROBI_BOUNDS : LatLngBounds :=
  { sw := ⟨-3 / 2, 73 / 2⟩, ne := ⟨-1, 186 / 5⟩ }

/-- The map option `minZoom`. -/
def minZoom : Nat := 10

/-- The map option `maxZoom`. -/
def maxZoom : Nat := 18

/-! ## Cluster icon -/

/-- The options object handed to `L.DivIcon`. -/
structure DivIcon where
  html : String
  className : String
  iconSize : Nat × Nat
  deriving DecidableEq, Repr

/-- The size class chosen by `iconCreateFunction` for a cluster of `count` markers. -/
def clusterClassName (count : Nat) : String :=
  let className := "marker-cluster-small"
  let className := if count > 10 then "marker-cluster-medium" else className
  let className := if count > 50 then "marker-cluster-large" else className
  className

/-- The option `iconCreateFunction` of the marker cluster group, as a function of
`cluster.getChildCount()`. -/
def iconCreateFunction (count : Nat) : DivIcon :=
  { html := "<div><span>" ++ toString count ++ "</span></div>"
    className := "marker-cluster " ++ clusterClassName count
    iconSize := (40, 40) }

/-! ## The Leaflet map

An idealised map, used to run the effects on sample inputs. -/

/-- The viewport of a Leaflet map: centre, zoom level and the pixel size of its container.
The options are those the component passes to `L.map`: `minZoom`, `maxZoom` and
`maxBounds: NAIROBI_BOUNDS`. -/
structure LeafletMap where
  center : LatLng
  zoom : Nat
  width : Nat
  height : Nat
  deriving DecidableEq

/-- Degrees of longitude (and, in the linear projection, of latitude) covered by one pixel
at a zoom level: the world is 256 * 2^zoom pixels wide. -/
def degPerPixel (zoom : Nat) : ℚ :=
  360 / (256 * 2 ^ zoom)

/-- The method `map.getBounds()` of the idealised map: the rectangle that is visible in
the container under the linear projection, with no rounding of the pixel origin (the
edges of the library's view differ from these by a fraction of a pixel and by the
Mercator scale of latitudes). -/
def LeafletMap.getBounds (m : LeafletMap) : LatLngBounds :=
  let halfLat := (m.height : ℚ) / 2 * degPerPixel m.zoom
  let halfLng := (m.width : ℚ) / 2 * degPerPixel m.zoom
  { sw := ⟨m.center.lat - halfLat, m.center.lng - halfLng⟩
    ne := ⟨m.center.lat + halfLat, m.center.lng + halfLng⟩ }

/-- Leaflet `_limitZoom`: a requested zoom is clamped to `[minZoom, maxZoom]`. -/
def limitZoom (zoom : Nat) : Nat :=
  max minZoom (min maxZoom zoom)

/-- One axis of Leaflet `_limitCenter`: a view of half-extent `h` centred at `c` is moved
so that it stays inside `[a, b]`; a view wider than `[a, b]` is centred on it. -/
def limitAxis (c h a b : ℚ) : ℚ :=
  if b - a < 2 * h then (a + b) / 2 else max (a + h) (min (b - h) c)

/-- Leaflet `_limitCenter` with `maxBounds = NAIROBI_BOUNDS` on the idealised map: the
clamp is exact, where the library clamps by whole pixels and leaves an offset of less
than a pixel. -/
def LeafletMap.limitCenter (m : LeafletMap) (c : LatLng) (zoom : Nat) : LatLng :=
  let halfLat := (m.height : ℚ) / 2 * degPerPixel zoom
  let halfLng := (m.width : ℚ) / 2 * degPerPixel zoom
  { lat := limitAxis c.lat halfLat NAIROBI_BOUNDS.sw.lat NAIROBI_BOUNDS.ne.lat
    lng := limitAxis c.lng halfLng NAIROBI_BOUNDS.sw.lng NAIROBI_BOUNDS.ne.lng }

/-- The method `map.setView(center, zoom)` of the idealised map: zoom and centre are
clamped, then adopted. -/
def LeafletMap.setView (m : LeafletMap) (c : LatLng) (zoom : Nat) : LeafletMap :=
  let z := limitZoom zoom
  { m with center := m.limitCenter c z, zoom := z }

/-- The rectangle `b` fits the container at zoom `z` with `padX`, `padY` pixels kept free
on each side. -/
def LeafletMap.boundsFit (m : LeafletMap) (b : LatLngBounds) (padX padY z : Nat) : Prop :=
  (b.ne.lng - b.sw.lng) / degPerPixel z ≤ (m.width : ℚ) - 2 * padX ∧
    (b.ne.lat - b.sw.lat) / degPerPixel z ≤ (m.height : ℚ) - 2 * padY

instance (m : LeafletMap) (b : LatLngBounds) (padX padY z : Nat) :
    Decidable (m.boundsFit b padX padY z) := by
  unfold LeafletMap.boundsFit
  infer_instance

/-- Leaflet `getBoundsZoom` on the idealised map: the largest integer zoom at which the
padded rectangle fits, capped by `maxZoom` and raised to `minZoom` (the library also
takes the next level when the fit zoom lies within one percent of it). -/
def LeafletMap.getBoundsZoom (m : LeafletMap) (b : LatLngBounds) (padX padY : Nat) : Nat :=
  match (List.range (maxZoom + 1)).reverse.find? (fun z => decide (m.boundsFit b padX padY z)) with
  | some z => max minZoom z
  | none => minZoom

/-- The method `map.fitBounds(bounds, {padding: [padX, padY]})` of the idealised map: the
view is set to the latitude/longitude midpoint of the rectangle at the zoom of
`getBoundsZoom`. -/
def LeafletMap.fitBounds (m : LeafletMap) (b : LatLngBounds) (padX padY : Nat) : LeafletMap :=
  let zoom := m.getBoundsZoom b padX padY
  let center : LatLng := ⟨(b.sw.lat + b.ne.lat) / 2, (b.sw.lng + b.ne.lng) / 2⟩
  m.setView center zoom

/-- The map `L.map(container, options)` creates: the options `center: NAIROBI_CENTER` and
`zoom: 12` are applied through `setView`. -/
def LeafletMap.create (width height : Nat) : LeafletMap :=
  LeafletMap.setView ⟨⟨0, 0⟩, 0, width, height⟩ NAIROBI_CENTER 12

/-! ## Component state -/

/-- An exception raised while an effect runs. -/
inductive JsError where
  | invalidLatLng
  | typeError
  deriving DecidableEq, Repr

/-- The content bound to a marker with `bindPopup`.  The coordinates are the numbers the
markup shows through `toFixed(4)`, `created_at` the value it shows through
`toLocaleDateString()`; `viewArg` is the text between the quotes of
`window.handlePhotoClick` in the `onclick` attribute of the View Details button. -/
structure Popup where
  imgSrc : String
  description : String
  created_at : String
  latitude : ℚ
  longitude : ℚ
  viewArg : String
  deriving DecidableEq

/-- A Leaflet marker.  The field `handle` is the identity of the object (markers are
numbered in the order `L.marker` creates them); `clickArgs` lists the listeners
registered with `marker.on` for the click event, each by the report it passes to
`onMarkerClick`. -/
structure Marker where
  handle : Nat
  latlng : LatLng
  popup : Popup
  clickArgs : List Report
  deriving DecidableEq

/-- A call the update effect makes on the marker layer or on the map. -/
inductive MapCall where
  | removeLayer (handle : Nat)
  | addLayer (handle : Nat)
  | fitBounds (bounds : LatLngBounds) (padX padY : Nat)
  | setView (center : LatLng) (zoom : Nat)
  deriving DecidableEq

/-- The call removes a marker from the layer. -/
def MapCall.isRemove : MapCall → Bool
  | .removeLayer _ => true
  | _ => false

/-- The call adds a marker to the layer. -/
def MapCall.isAdd : MapCall → Bool
  | .addLayer _ => true
  | _ => false

/-- The call changes the viewport. -/
def MapCall.isViewport : MapCall → Bool
  | .fitBounds _ _ _ => true
  | .setView _ _ => true
  | _ => false

/-- The mutable state around the component: the refs `mapRef` (the container element,
by its pixel size), `mapInstanceRef` and `markersRef` (the layers of the cluster group),
the global `window.handlePhotoClick` (by the `photos` value its closure holds), and
counters for marker handles and for maps created and removed. -/
structure MapState where
  container : Option (Nat × Nat)
  mapInstance : Option LeafletMap
  markers : Option (List Marker)
  handlePhotoClick : Option (Option (List Report))
  nextHandle : Nat
  mapsCreated : Nat
  mapsRemoved : Nat
  deriving DecidableEq

/-- What an effect did: the state it leaves, the calls it made in order, and the
exception that ended it, if any. -/
structure Outcome where
  state : MapState
  calls : List MapCall
  error : Option JsError
  deriving DecidableEq

/-- The state when the component has rendered into a container of the given size and no
effect has run yet. -/
def MapState.rendered (width height : Nat) : MapState :=
  { container := some (width, height), mapInstance := none, markers := none,
    handlePhotoClick := none, nextHandle := 0, mapsCreated := 0, mapsRemoved := 0 }

/-- The first effect of the component (Initialize map), without its cleanup. -/
def initMapEffect (st : MapState) : MapState :=
  match st.container, st.mapInstance with
  | some (w, h), none =>
    { st with mapInstance := some (LeafletMap.create w h), markers := some [],
              mapsCreated := st.mapsCreated + 1 }
  | _, _ => st

/-! ## The marker-update effect -/

/-- One pass of the body of `photos.forEach`, up to the marker that `addLayer` receives.
`L.marker` throws (Invalid LatLng object) when a coordinate is `undefined` or NaN;
with a `null` coordinate the marker is built but the popup template then calls `toFixed`
on `null`, a TypeError.  Otherwise the marker carries the position, the popup and one
click listener, which passes `photo` to `onMarkerClick`. -/
def buildMarker (handle : Nat) (photo : Report) : Except JsError Marker :=
  match photo.latitude, photo.longitude with
  | .num lat, .num lng =>
    .ok { handle := handle
          latlng := ⟨lat, lng⟩
          popup := { imgSrc := photo.s3_url, description := photo.description,
                     created_at := photo.created_at, latitude := lat, longitude := lng,
                     viewArg := photo.id.toText }
          clickArgs := [photo] }
  | .null, _ => .error .typeError
  | .num _, .null => .error .typeError
  | _, _ => .error .invalidLatLng

/-- The loop `photos.forEach`: markers are added to `layers` in list order until a report
makes the body throw.  Returns the layers, the next free handle and the exception. -/
def addMarkers : List Report → Nat → List Marker → List Marker × Nat × Option JsError
  | [], next, layers => (layers, next, none)
  | photo :: rest, next, layers =>
    match buildMarker next photo with
    | .error e => (layers, next, some e)
    | .ok marker => addMarkers rest (next + 1) (layers ++ [marker])

/-- The bounds `L.featureGroup(layers).getBounds()`: an empty rectangle extended by every
marker position; `none` when there is no layer. -/
def markerBounds : List Marker → Option LatLngBounds
  | [] => none
  | m :: ms => some (ms.foldl (fun b x => b.extend x.latlng) ⟨m.latlng, m.latlng⟩)

/-- The fit-bounds policy at the end of the update effect, for a live map: the viewport
call it decides on, if any. -/
def viewportCall (photos : List Report) (layers : List Marker) (map : LeafletMap) :
    Except JsError (Option MapCall) :=
  match markerBounds layers with
  | none => .ok none
  | some bounds =>
    match photos with
    | [] => .ok none
    | [photo] =>
      match photo.latitude, photo.longitude with
      | .num lat, .num lng =>
        if map.getBounds.contains ⟨lat, lng⟩ then .ok none
        else .ok (some (.setView ⟨lat, lng⟩ 15))
      | _, _ => .error .invalidLatLng
    | _ :: _ :: _ => .ok (some (.fitBounds bounds 20 20))

/-- The effect of a viewport call on the map. -/
def LeafletMap.perform (m : LeafletMap) : MapCall → LeafletMap
  | .fitBounds b padX padY => m.fitBounds b padX padY
  | .setView c z => m.setView c z
  | _ => m

/-- The second effect of the component (Update markers when photos change). -/
def updateMarkersEffect (photos : Option (List Report)) (st : MapState) : Outcome :=
  match st.markers, photos with
  | some old, some ps =>
    let cleared := old.map (fun m => MapCall.removeLayer m.handle)
    let (layers, next, err) := addMarkers ps st.nextHandle []
    let added := layers.map (fun m => MapCall.addLayer m.handle)
    let st1 : MapState := { st with markers := some layers, nextHandle := next }
    match err with
    | some e => ⟨st1, cleared ++ added, some e⟩
    | none =>
      if ps.isEmpty || layers.isEmpty then ⟨st1, cleared ++ added, none⟩
      else
        match st.mapInstance with
        | none => ⟨st1, cleared ++ added, some .typeError⟩
        | some map =>
          match viewportCall ps layers map with
          | .error e => ⟨st1, cleared ++ added, some e⟩
          | .ok none => ⟨st1, cleared ++ added, none⟩
          | .ok (some call) =>
            ⟨{ st1 with mapInstance := some (map.perform call) }, cleared ++ added ++ [call], none⟩
  | _, _ => ⟨st, [], none⟩

/-! ## The update effect over any Leaflet

The effect once more, with the three Leaflet methods it calls as parameters, so that what
is proved of the viewport policy holds for the library as it is and not only for the
idealised map above. -/

/-- The methods of a Leaflet map that the update effect calls, as functions of the map:
`getBounds()`, `setView(center, zoom)` and `fitBounds(bounds, {padding: [padX, padY]})`.
Nothing is assumed of them. -/
structure Leaflet where
  getBounds : LeafletMap → LatLngBounds
  setView : LeafletMap → LatLng → Nat → LeafletMap
  fitBounds : LeafletMap → LatLngBounds → Nat → Nat → LeafletMap

/-- The idealised map of the section above as an instance of the Leaflet methods. -/
def modelLeaflet : Leaflet :=
  { getBounds := LeafletMap.getBounds
    setView := LeafletMap.setView
    fitBounds := LeafletMap.fitBounds }

/-- The fit-bounds policy at the end of the update effect with the Leaflet methods as
parameters: the viewport call it decides on, if any. -/
def viewportCallOn (leaflet : Leaflet) (photos : List Report) (layers : List Marker)
    (map : LeafletMap) : Except JsError (Option MapCall) :=
  match markerBounds layers with
  | none => .ok none
  | some bounds =>
    match photos with
    | [] => .ok none
    | [photo] =>
      match photo.latitude, photo.longitude with
      | .num lat, .num lng =>
        if (leaflet.getBounds map).contains ⟨lat, lng⟩ then .ok none
        else .ok (some (.setView ⟨lat, lng⟩ 15))
      | _, _ => .error .invalidLatLng
    | _ :: _ :: _ => .ok (some (.fitBounds bounds 20 20))

/-- The effect of a viewport call on the map, by the given Leaflet methods. -/
def Leaflet.perform (leaflet : Leaflet) (m : LeafletMap) : MapCall → LeafletMap
  | .fitBounds b padX padY => leaflet.fitBounds m b padX padY
  | .setView c z => leaflet.setView m c z
  | _ => m

/-- The second effect of the component (Update markers when photos change) with the
Leaflet methods as parameters. -/
def updateMarkersEffectOn (leaflet : Leaflet) (photos : Option (List Report))
    (st : MapState) : Outcome :=
  match st.markers, photos with
  | some old, some ps =>
    let cleared := old.map (fun m => MapCall.removeLayer m.handle)
    let (layers, next, err) := addMarkers ps st.nextHandle []
    let added := layers.map (fun m => MapCall.addLayer m.handle)
    let st1 : MapState := { st with markers := some layers, nextHandle := next }
    match err with
    | some e => ⟨st1, cleared ++ added, some e⟩
    | none =>
      if ps.isEmpty || layers.isEmpty then ⟨st1, cleared ++ added, none⟩
      else
        match st.mapInstance with
        | none => ⟨st1, cleared ++ added, some .typeError⟩
        | some map =>
          match viewportCallOn leaflet ps layers map with
          | .error e => ⟨st1, cleared ++ added, some e⟩
          | .ok none => ⟨st1, cleared ++ added, none⟩
          | .ok (some call) =>
            ⟨{ st1 with mapInstance := some (leaflet.perform map call) },
              cleared ++ added ++ [call], none⟩
  | _, _ => ⟨st, [], none⟩

/-! ## Popup dispatch and marker clicks -/

/-- The third effect of the component: `window.handlePhotoClick` is set to a closure over
the current `photos`. -/
def dispatchEffect (photos : Option (List Report)) (st : MapState) : MapState :=
  { st with handlePhotoClick := some photos }

/-- The function stored in `window.handlePhotoClick`: the reports `onMarkerClick` is
called with, for the closure over `photos` and the argument `photoId`. -/
def handlePhotoClick (photos : Option (List Report)) (photoId : JsId) :
    Except JsError (List Report) :=
  match photos with
  | none => .error .typeError
  | some ps =>
    match ps.find? (fun p => p.id.strictEq photoId) with
    | some photo => .ok [photo]
    | none => .ok []

/-- Activating the View Details button of a marker popup: the `onclick` attribute calls
`window.handlePhotoClick` with the embedded text as a string.  (The markup delivers the
text unchanged when it has no quote, backslash, ampersand or line break.) -/
def Marker.viewDetails (m : Marker) (st : MapState) : Except JsError (List Report) :=
  match st.handlePhotoClick with
  | none => .error .typeError
  | some photos => handlePhotoClick photos (.str m.popup.viewArg)

/-- A call of `window.handlePhotoClick(photoId)` in the given state: a TypeError when the
global is not set. -/
def MapState.callHandlePhotoClick (st : MapState) (photoId : JsId) :
    Except JsError (List Report) :=
  match st.handlePhotoClick with
  | none => .error .typeError
  | some photos => DirtyNairobi.handlePhotoClick photos photoId

/-- Firing the click event of a marker: the reports `onMarkerClick` is called with, one
per registered listener. -/
def Marker.click (m : Marker) : List Report :=
  m.clickArgs

/-- The report ids bound to the live markers, in layer order. -/
def MapState.liveIds (st : MapState) : List JsId :=
  (st.markers.getD []).flatMap (fun m => m.clickArgs.map (fun r => r.id))

/-- The handles of the live markers, in layer order. -/
def MapState.liveHandles (st : MapState) : List Nat :=
  (st.markers.getD []).map (fun m => m.handle)

/-- The effects of the first commit, in order, for a component rendered into a container
of the given size with the given `photos`; an exception in the update effect ends the
commit before the dispatch effect. -/
def mount (width height : Nat) (photos : Option (List Report)) : Outcome :=
  let out := updateMarkersEffect photos (initMapEffect (MapState.rendered width height))
  match out.error with
  | none => { out with state := dispatchEffect photos out.state }
  | some _ => out

/-! ## Lifecycle and render of the map component -/

/-- The cleanup of the first effect: a live map is removed and both refs are cleared.
(The cleanup is registered by the run of the effect that created the map.) -/
def initMapCleanup (st : MapState) : MapState :=
  match st.mapInstance with
  | some _ =>
    { st with mapInstance := none, markers := none, mapsRemoved := st.mapsRemoved + 1 }
  | none => st

/-- The cleanup of the third effect: `delete window.handlePhotoClick`. -/
def dispatchCleanup (st : MapState) : MapState :=
  { st with handlePhotoClick := none }

/-- Unmounting the component: the cleanups of its effects run in the order of the
effects. -/
def unmount (st : MapState) : MapState :=
  dispatchCleanup (initMapCleanup st)

/-- A commit after `photos` (or `onMarkerClick`) changed: the cleanup of the dispatch
effect runs first, then the update effect and the dispatch effect; an exception in the
update effect ends the commit before the dispatch effect. -/
def rerender (photos : Option (List Report)) (st : MapState) : Outcome :=
  let out := updateMarkersEffect photos (dispatchCleanup st)
  match out.error with
  | none => { out with state := dispatchEffect photos out.state }
  | some _ => out

/-- A click of the user on the marker with the given handle: only a marker that is a
layer of the live cluster group can be clicked. -/
def MapState.clickMarker (st : MapState) (handle : Nat) : List Report :=
  match (st.markers.getD []).find? (fun m => m.handle == handle) with
  | some m => m.click
  | none => []

/-- What the component renders around the map container: the loading indicator, the
empty-state message and the text of the photo counter. -/
structure MapView where
  loadingIndicator : Bool
  emptyMessage : Bool
  stats : Option String
  deriving DecidableEq, Repr

/-- The JSX the component returns.  With `isLoading` true the `&&` chains do not read
`photos`; otherwise `photos.length` is read, a TypeError when `photos` is null. -/
def render (photos : Option (List Report)) (isLoading : Bool) : Except JsError MapView :=
  if isLoading then
    .ok { loadingIndicator := true, emptyMessage := false, stats := none }
  else
    match photos with
    | none => .error .typeError
    | some ps =>
      .ok { loadingIndicator := false
            emptyMessage := ps.length == 0
            stats := if ps.length > 0 then
                some (toString ps.length ++ " photo" ++ (if ps.length != 1 then "s" else "") ++
                  " displayed")
              else none }

/-! ## Strings and numbers of JavaScript

Parsing and comparison are exact: the value of a decimal text is the rational it
denotes, and rounding to binary64 is not modelled. -/

/-- The code points JavaScript treats as white space or line terminator, the set that
`String.prototype.trim` and `parseFloat` strip. -/
def isWhiteSpace (c : Char) : Bool :=
  [9, 10, 11, 12, 13, 32, 160, 5760, 8232, 8233, 8239, 8287, 12288, 65279].contains c.toNat ||
    (8192 ≤ c.toNat && c.toNat ≤ 8202)

/-- The method `String.prototype.trim`. -/
def jsTrim (s : String) : String :=
  String.mk ((s.data.dropWhile isWhiteSpace).reverse.dropWhile isWhiteSpace).reverse

/-- The property `length` of a string: the number of UTF-16 code units. -/
def jsLength (s : String) : Nat :=
  (s.data.map (fun c => if c.toNat < 65536 then 1 else 2)).sum

/-- The characters of `text` begin with those of `start`. -/
def startsWithChars : List Char → List Char → Bool
  | _, [] => true
  | [], _ :: _ => false
  | c :: text, d :: start => c == d && startsWithChars text start

/-- The substring test behind `String.prototype.includes`, on lists of characters. -/
def includesChars : List Char → List Char → Bool
  | [], search => search.isEmpty
  | c :: text, search => startsWithChars (c :: text) search || includesChars text search

/-- The method `String.prototype.includes`. -/
def jsIncludes (text search : String) : Bool :=
  includesChars text.data search.data

/-- A JavaScript number as `parseFloat` returns it. -/
inductive JsNumber where
  | nan
  | posInf
  | negInf
  | fin (q : ℚ)
  deriving DecidableEq

/-- The function `isNaN` on a number. -/
def JsNumber.isNaN : JsNumber → Bool
  | .nan => true
  | _ => false

/-- The comparison `x < q` with a finite number `q`; false for NaN. -/
def JsNumber.ltNum (x : JsNumber) (q : ℚ) : Bool :=
  match x with
  | .nan => false
  | .posInf => false
  | .negInf => true
  | .fin v => decide (v < q)

/-- The comparison `x > q` with a finite number `q`; false for NaN. -/
def JsNumber.gtNum (x : JsNumber) (q : ℚ) : Bool :=
  match x with
  | .nan => false
  | .posInf => true
  | .negInf => false
  | .fin v => decide (v > q)

/-- The value of a run of decimal digits. -/
def digitsValue (digits : List Char) : Nat :=
  digits.foldl (fun acc c => 10 * acc + (c.toNat - 48)) 0

/-- The exponent part of a decimal literal at the head of `rest`: `e` or `E`, an optional
sign and at least one digit; zero when there is no such part. -/
def exponentValue (rest : List Char) : Int :=
  match rest with
  | e :: tail =>
    if e == 'e' || e == 'E' then
      match tail with
      | '-' :: digits =>
        if (digits.takeWhile Char.isDigit).isEmpty then 0
        else -((digitsValue (digits.takeWhile Char.isDigit) : Nat) : Int)
      | '+' :: digits => ((digitsValue (digits.takeWhile Char.isDigit) : Nat) : Int)
      | digits => ((digitsValue (digits.takeWhile Char.isDigit) : Nat) : Int)
    else 0
  | [] => 0

/-- The unsigned part of `parseFloat`: the longest leading decimal literal of the
characters, or `Infinity`. -/
def parseUnsigned (cs : List Char) : JsNumber :=
  if startsWithChars cs "Infinity".data then .posInf
  else
    let intDigits := cs.takeWhile Char.isDigit
    let rest := cs.dropWhile Char.isDigit
    let fracDigits := match rest with
      | '.' :: tail => tail.takeWhile Char.isDigit
      | _ => []
    let afterFrac := match rest with
      | '.' :: tail => tail.dropWhile Char.isDigit
      | _ => rest
    if intDigits.isEmpty && fracDigits.isEmpty then .nan
    else
      .fin (((digitsValue intDigits : ℚ) + (digitsValue fracDigits : ℚ) / 10 ^ fracDigits.length) *
        10 ^ exponentValue afterFrac)

/-- The global function `parseFloat` on a string: leading white space is skipped, then
the longest prefix that is a signed decimal literal is read; NaN when there is none. -/
def parseFloat (s : String) : JsNumber :=
  match s.data.dropWhile isWhiteSpace with
  | '-' :: cs =>
    match parseUnsigned cs with
    | .fin q => .fin (-q)
    | .posInf => .negInf
    | other => other
  | '+' :: cs => parseUnsigned cs
  | cs => parseUnsigned cs

/-! ## The upload form -/

/-- A file as the form reads it: name, MIME type and size in bytes. -/
structure File where
  name : String
  type : String
  size : Nat
  deriving DecidableEq, Repr

/-- The state `formData` of the form. -/
structure FormData where
  image : Option File
  description : String
  latitude : String
  longitude : String
  locationName : String
  deriving DecidableEq, Repr

/-- The state `errors` of the form: the message stored under each key, `none` for a key
that is absent. -/
structure FormErrors where
  image : Option String
  description : Option String
  latitude : Option String
  longitude : Option String
  deriving DecidableEq, Repr

/-- The keys present in an errors object (`Object.keys`). -/
def FormErrors.keys (e : FormErrors) : List String :=
  (if e.image.isSome then ["image"] else []) ++
    (if e.description.isSome then ["description"] else []) ++
    (if e.latitude.isSome then ["latitude"] else []) ++
    (if e.longitude.isSome then ["longitude"] else [])

/-- The truth value of an entry of the errors object: set and not the empty string. -/
def errorSet : Option String → Bool
  | some msg => msg != ""
  | none => false

/-- A call on `toast`. -/
inductive Toast where
  | error (msg : String)
  | success (msg : String)
  | loading (msg : String)
  | dismiss
  deriving DecidableEq, Repr

/-- The state of the form that the handlers read and write, with the toasts shown so
far. -/
structure FormState where
  formData : FormData
  errors : FormErrors
  isUploading : Bool
  toasts : List Toast
  deriving DecidableEq, Repr

/-- An interval of numbers with both ends. -/
structure Range where
  min : ℚ
  max : ℚ
  deriving DecidableEq

/-- The shape of the bounds constant of the form. -/
structure FormBounds where
  lat : Range
  lng : Range
  deriving DecidableEq

/-- The constant `NAIROBI_BOUNDS` of `UploadForm.js`. -/
def UploadForm.NAIROBI_BOUNDS : FormBounds :=
  { lat := { min := -3 / 2, max := -1 }, lng := { min := 73 / 2, max := 186 / 5 } }

/-- The constant `allowedTypes` of `handleFileSelect`. -/
def UploadForm.allowedTypes : List String :=
  ["image/jpeg", "image/jpg", "image/png", "image/gif", "image/webp"]

/-- The constant `maxSize` of `handleFileSelect`. -/
def UploadForm.maxSize : Nat := 10 * 1024 * 1024

/-- The handler `handleFileSelect`. -/
def UploadForm.handleFileSelect (file : Option File) (st : FormState) : FormState :=
  match file with
  | none => st
  | some f =>
    if !UploadForm.allowedTypes.contains f.type then
      { st with toasts := st.toasts ++
          [.error "Please select a valid image file (JPEG, PNG, GIF, or WebP)"] }
    else if f.size > UploadForm.maxSize then
      { st with toasts := st.toasts ++ [.error "File size must be less than 10MB"] }
    else
      { st with formData := { st.formData with image := some f }
                errors := if errorSet st.errors.image then { st.errors with image := some "" }
                  else st.errors }

/-- The function `validateForm`: the errors object it stores with `setErrors` and the
value it returns. -/
def UploadForm.validateForm (formData : FormData) : FormErrors × Bool :=
  let image :=
    if formData.image.isNone then some "Please select an image" else none
  let description :=
    if jsTrim formData.description = "" then some "Please provide a description"
    else if jsLength (jsTrim formData.description) < 10 then
      some "Description must be at least 10 characters"
    else none
  let lat := parseFloat formData.latitude
  let lng := parseFloat formData.longitude
  let latitude :=
    if formData.latitude = "" || lat.isNaN then some "Please provide a valid latitude"
    else if lat.ltNum UploadForm.NAIROBI_BOUNDS.lat.min ||
        lat.gtNum UploadForm.NAIROBI_BOUNDS.lat.max then
      some "Latitude must be within Nairobi bounds (-1.5 to -1.0)"
    else none
  let longitude :=
    if formData.longitude = "" || lng.isNaN then some "Please provide a valid longitude"
    else if lng.ltNum UploadForm.NAIROBI_BOUNDS.lng.min ||
        lng.gtNum UploadForm.NAIROBI_BOUNDS.lng.max then
      some "Longitude must be within Nairobi bounds (36.5 to 37.2)"
    else none
  let newErrors : FormErrors :=
    { image := image, description := description, latitude := latitude, longitude := longitude }
  (newErrors, newErrors.keys.length == 0)

/-- A request the form sends through `photoAPI`. -/
inductive ApiCall where
  | getPresignedUrl (filename contentType : String)
  | uploadToS3 (presignedUrl : String) (file : File)
  | createPhoto (s3_key description : String) (latitude longitude : JsNumber)
  deriving DecidableEq

/-- The data of a pre-signed URL response. -/
structure PresignedData where
  upload_url : String
  s3_key : String
  deriving DecidableEq, Repr

/-- What the network answers to the three requests of one submission; a rejection carries
`error.response.data.error.message` when the server sent one. -/
structure ApiResponses where
  presigned : Except (Option String) PresignedData
  upload : Except (Option String) Unit
  created : Except (Option String) Report

/-- What `handleSubmit` did: the state it leaves, the requests it sent in order, and the
report it handed to `onUploadSuccess`, if any. -/
structure SubmitResult where
  state : FormState
  calls : List ApiCall
  uploaded : Option Report

/-- The `catch` and `finally` blocks of `handleSubmit`. -/
def UploadForm.submitFailed (st : FormState) (toasts : List Toast) (calls : List ApiCall)
    (serverMessage : Option String) : SubmitResult :=
  { state := { st with isUploading := false
                       toasts := toasts ++ [.dismiss,
                         .error (match serverMessage with
                           | some msg => if msg != "" then msg
                             else "Failed to upload photo. Please try again."
                           | none => "Failed to upload photo. Please try again.")] }
    calls := calls
    uploaded := none }

/-- The handler `handleSubmit`, run to completion against the given network answers. -/
def UploadForm.handleSubmit (api : ApiResponses) (st : FormState) : SubmitResult :=
  let (newErrors, valid) := UploadForm.validateForm st.formData
  let st := { st with errors := newErrors }
  if !valid then
    { state := { st with toasts := st.toasts ++ [.error "Please fix the errors in the form"] }
      calls := []
      uploaded := none }
  else
    match st.formData.image with
    | none =>
      UploadForm.submitFailed st (st.toasts ++ [.loading "Preparing upload..."]) [] none
    | some file =>
      let t1 := st.toasts ++ [.loading "Preparing upload..."]
      let c1 := [ApiCall.getPresignedUrl file.name file.type]
      match api.presigned with
      | .error msg => UploadForm.submitFailed st t1 c1 msg
      | .ok presignedData =>
        let t2 := t1 ++ [.dismiss, .loading "Uploading image..."]
        let c2 := c1 ++ [ApiCall.uploadToS3 presignedData.upload_url file]
        match api.upload with
        | .error msg => UploadForm.submitFailed st t2 c2 msg
        | .ok _ =>
          let t3 := t2 ++ [.dismiss, .loading "Saving photo details..."]
          let c3 := c2 ++ [ApiCall.createPhoto presignedData.s3_key
            (jsTrim st.formData.description) (parseFloat st.formData.latitude)
            (parseFloat st.formData.longitude)]
          match api.created with
          | .error msg => UploadForm.submitFailed st t3 c3 msg
          | .ok newPhoto =>
            { state := { st with
                formData := { image := none, description := "", latitude := "",
                              longitude := "", locationName := "" }
                isUploading := false
                toasts := t3 ++ [.dismiss, .success "Photo uploaded successfully!"] }
              calls := c3
              uploaded := some newPhoto }

/-! ## The filter of the application

The methods `toLowerCase` and `toUpperCase` of strings follow the case mappings of
Unicode.  They are given here for the code points of Basic Latin and Latin-1 Supplement
(U+0000 to U+00FF) and are `none` on a text with a code point above U+00FF. -/

/-- The code point of the lower-case form of a code point below U+0100: the capitals A to
Z and À to Þ (without the sign ×, U+00D7) lie 32 below their small letters, every other
code point has no other lower-case form. -/
def lowerCode (n : Nat) : Nat :=
  if (65 ≤ n ∧ n ≤ 90) ∨ (192 ≤ n ∧ n ≤ 222 ∧ n ≠ 215) then n + 32 else n

/-- The lower-case form of a code point below U+0100. -/
def lowerLatin1 (c : Char) : Char :=
  Char.ofNat (lowerCode c.toNat)

/-- The mapping of `String.prototype.toLowerCase` for one code point of Basic Latin and
Latin-1 Supplement (U+0000 to U+00FF); `none` for a code point above U+00FF, where the
case mappings of Unicode are not reproduced. -/
def lowerCaseChar (c : Char) : Option Char :=
  if c.toNat < 256 then some (lowerLatin1 c) else none

/-- The lower-case forms of a run of code points, `none` when one lies above U+00FF. -/
def lowerCaseChars : List Char → Option (List Char)
  | [] => some []
  | c :: cs =>
    match lowerCaseChar c, lowerCaseChars cs with
    | some d, some ds => some (d :: ds)
    | _, _ => none

/-- The method `String.prototype.toLowerCase` on a text whose code points lie below
U+0100; `none` on any other text. -/
def toLowerCase (s : String) : Option String :=
  (lowerCaseChars s.data).map String.mk

/-- The code point of the upper-case form of a code point below U+0100 that has one
below U+0100: the small letters a to z and à to þ (without the sign ÷, U+00F7). -/
def upperCode (n : Nat) : Nat :=
  if (97 ≤ n ∧ n ≤ 122) ∨ (224 ≤ n ∧ n ≤ 254 ∧ n ≠ 247) then n - 32 else n

/-- The mapping of `String.prototype.toUpperCase` for one code point of U+0000 to U+00FF,
as the code points it yields: ß (U+00DF) yields SS; `none` for µ (U+00B5) and ÿ (U+00FF),
whose capitals lie above U+00FF, and for every code point above U+00FF. -/
def upperCaseChar (c : Char) : Option (List Char) :=
  if 256 ≤ c.toNat ∨ c.toNat = 181 ∨ c.toNat = 255 then none
  else if c.toNat = 223 then some ['S', 'S']
  else some [Char.ofNat (upperCode c.toNat)]

/-- The upper-case forms of a run of code points. -/
def upperCaseChars : List Char → Option (List Char)
  | [] => some []
  | c :: cs =>
    match upperCaseChar c, upperCaseChars cs with
    | some d, some ds => some (d ++ ds)
    | _, _ => none

/-- The method `String.prototype.toUpperCase` where `upperCaseChar` is defined. -/
def toUpperCase (s : String) : Option String :=
  (upperCaseChars s.data).map String.mk

/-- The callback of `photos.filter` in the filter effect: whether the photo is kept. -/
def App.matchesFilter (filter : String) (photo : Report) : Option Bool :=
  match toLowerCase photo.description, toLowerCase filter with
  | some description, some search => some (jsIncludes description search)
  | _, _ => none

/-- The call `photos.filter(callback)` of the filter effect. -/
def App.filterLoop (filter : String) : List Report → Option (List Report)
  | [] => some []
  | photo :: rest =>
    match App.matchesFilter filter photo, App.filterLoop filter rest with
    | some keep, some kept => some (if keep then photo :: kept else kept)
    | _, _ => none

/-- The effect of `App` that handles filter changes: the value it stores in
`filteredPhotos`; `none` when a text it lower-cases has a code point above U+00FF. -/
def App.filterPhotos (filter : String) (photos : List Report) : Option (List Report) :=
  if jsTrim filter = "" then some photos
  else App.filterLoop filter photos

/-- Every code point of the text lies below U+0100. -/
def isLatin1 (s : String) : Bool :=
  s.data.all (fun c => decide (c.toNat < 256))

/-- One code point with its letter case changed as asked, to upper case for `true` and to
lower case for `false`, where that form is a single code point below U+0100; other code
points are kept. -/
def recaseChar (upper : Bool) (c : Char) : Char :=
  if upper then
    match upperCaseChar c with
    | some [d] => d
    | _ => c
  else (lowerCaseChar c).getD c

/-- A run of code points with the letter case changed position by position as the list of
choices says; code points past the end of the list are kept. -/
def recaseChars : List Bool → List Char → List Char
  | upper :: choices, c :: cs => recaseChar upper c :: recaseChars choices cs
  | _, cs => cs

/-- A text with its letter case changed as the list of choices says. -/
def recase (choices : List Bool) (s : String) : String :=
  String.mk (recaseChars choices s.data)

/-- A report with the letter case of its description changed. -/
def Report.recaseDescription (choices : Report → List Bool) (r : Report) : Report :=
  { r with description := recase (choices r) r.description }

/-! ## The modal state of the application -/

/-- The state of `App`: the values of its seven `useState` hooks. -/
structure AppState where
  photos : List Report
  filteredPhotos : List Report
  selectedPhoto : Option Report
  isModalOpen : Bool
  isLoading : Bool
  filter : String
  error : Option String
  deriving DecidableEq

/-- The state of `App` at its first render. -/
def App.initialState : AppState :=
  { photos := [], filteredPhotos := [], selectedPhoto := none, isModalOpen := false,
    isLoading := true, filter := "", error := none }

/-- The state setter `setSelectedPhoto`. -/
def App.setSelectedPhoto (photo : Option Report) (s : AppState) : AppState :=
  { s with selectedPhoto := photo }

/-- The state setter `setIsModalOpen`. -/
def App.setIsModalOpen (isOpen : Bool) (s : AppState) : AppState :=
  { s with isModalOpen := isOpen }

/-- The callback `handleMarkerClick`: the photo is stored, then the modal is opened.  The
argument is `none` for a call with `null`. -/
def App.handleMarkerClick (photo : Option Report) (s : AppState) : AppState :=
  App.setIsModalOpen true (App.setSelectedPhoto photo s)

/-- The callback `handleModalClose`: the modal is closed, then the photo is cleared. -/
def App.handleModalClose (s : AppState) : AppState :=
  App.setSelectedPhoto none (App.setIsModalOpen false s)

/-- A step of the modal: a marker (or popup control) hands a report to
`handleMarkerClick`, or the modal calls `handleModalClose`. -/
inductive AppStep where
  | markerClick (photo : Report)
  | modalClose
  deriving DecidableEq

/-- The state after one step. -/
def App.step (s : AppState) : AppStep → AppState
  | .markerClick photo => App.handleMarkerClick (some photo) s
  | .modalClose => App.handleModalClose s

/-- The state after a sequence of steps, first step first. -/
def App.run (steps : List AppStep) (s : AppState) : AppState :=
  steps.foldl App.step s

/-- The guard of `PhotoModal`: the component returns `null` when `!isOpen || !photo`, and
renders the modal otherwise. -/
def PhotoModal.renders (photo : Option Report) (isOpen : Bool) : Bool :=
  !(!isOpen || photo.isNone)

/-! ## Sample inputs -/

/-- The first report of the example scenario: id 1 at (-1.30, 36.82). -/
def exampleReport1 : Report :=
  { id := .num 1, latitude := .num (-13 / 10), longitude := .num (1841 / 50),
    description := "blocked drain", s3_url := "https://example.org/1.jpg",
    created_at := "2024-01-01T00:00:00Z" }

/-- The second report of the example scenario: id 2 at (-1.29, 36.78). -/
def exampleReport2 : Report :=
  { id := .num 2, latitude := .num (-129 / 100), longitude := .num (1839 / 50),
    description := "dump site", s3_url := "https://example.org/2.jpg",
    created_at := "2024-01-02T00:00:00Z" }

/-- A report with a string id. -/
def exampleReport3 : Report :=
  { id := .str "a1b2", latitude := .num (-5 / 4), longitude := .num (184 / 5),
    description := "overflowing bin", s3_url := "https://example.org/3.jpg",
    created_at := "2024-01-03T00:00:00Z" }

/-- A report whose latitude field is absent. -/
def reportWithoutLatitude : Report :=
  { id := .num 7, latitude := .undef, longitude := .num (184 / 5),
    description := "no position", s3_url := "https://example.org/7.jpg",
    created_at := "2024-01-04T00:00:00Z" }

/-- A report from Mombasa, outside `NAIROBI_BOUNDS`: (-4.05, 39.67). -/
def mombasaReport : Report :=
  { id := .num 8, latitude := .num (-81 / 20), longitude := .num (3967 / 100),
    description := "beach litter", s3_url := "https://example.org/8.jpg",
    created_at := "2024-01-05T00:00:00Z" }

/-- A report inside `NAIROBI_BOUNDS` that the initial view of an 800 by 600 map does not
show: (-1.45, 36.55). -/
def outOfViewReport : Report :=
  { id := .num 11, latitude := .num (-29 / 20), longitude := .num (731 / 20),
    description := "burst pipe", s3_url := "https://example.org/11.jpg",
    created_at := "2024-01-08T00:00:00Z" }

/-- A report at the south-west corner of `NAIROBI_BOUNDS`. -/
def southWestReport : Report :=
  { id := .num 9, latitude := .num (-3 / 2), longitude := .num (73 / 2),
    description := "south-west", s3_url := "https://example.org/9.jpg",
    created_at := "2024-01-06T00:00:00Z" }

/-- A report at the north-east corner of `NAIROBI_BOUNDS`. -/
def northEastReport : Report :=
  { id := .num 10, latitude := .num (-1), longitude := .num (186 / 5),
    description := "north-east", s3_url := "https://example.org/10.jpg",
    created_at := "2024-01-07T00:00:00Z" }

/-- A report from a street whose name has the letter ß. -/
def strasseReport : Report :=
  { id := .num 21, latitude := .num (-13 / 10), longitude := .num (1841 / 50),
    description := "Kirchstraße", s3_url := "https://example.org/21.jpg",
    created_at := "2024-02-01T00:00:00Z" }

/-- A live component in a 360 by 640 pixel container (a phone screen), no markers yet. -/
def phoneState : MapState :=
  initMapEffect (MapState.rendered 360 640)

/-- A live component: rendered into an 800 by 600 container, map created, no markers yet. -/
def liveState : MapState :=
  initMapEffect (MapState.rendered 800 600)

/-- The state of the upload form when it is first rendered. -/
def UploadForm.initialState : FormState :=
  { formData := { image := none, description := "", latitude := "", longitude := "",
                  locationName := "" }
    errors := { image := none, description := none, latitude := none, longitude := none }
    isUploading := false
    toasts := [] }

/-- A PNG file of exactly 10 MB (10485760 bytes). -/
def tenMegabytePng : File :=
  { name := "drain.png", type := "image/png", size := 10485760 }

/-- A PNG file of 10 MB and one byte. -/
def oversizedPng : File :=
  { name := "big.png", type := "image/png", size := 10485761 }

/-- A PDF file larger than 10 MB. -/
def oversizedPdf : File :=
  { name := "scan.pdf", type := "application/pdf", size := 20000000 }

/-- A JPEG file of 2 MB. -/
def smallJpeg : File :=
  { name := "spot.jpg", type := "image/jpeg", size := 2097152 }

/-- A filled-in form: an image, a description of 27 characters and the coordinates that
`handleLocationSelect` stores for (-1.30, 36.82). -/
def validFormData : FormData :=
  { image := some smallJpeg, description := "  Plastic bottles at the stop ",
    latitude := "-1.300000", longitude := "36.820000", locationName := "Westlands" }

/-- A form with a short description and a latitude outside the bounds. -/
def invalidFormData : FormData :=
  { image := some smallJpeg, description := "rubbish",
    latitude := "-4.050000", longitude := "36.820000", locationName := "" }

/-- Network answers of a submission that succeeds. -/
def acceptingApi : ApiResponses :=
  { presigned := .ok { upload_url := "https://bucket.example.org/put", s3_key := "photos/1.jpg" }
    upload := .ok ()
    created := .ok exampleReport1 }

/-! ## Lemmas on the marker loop -/

theorem buildMarker_of_hasPosition (h : Nat) (r : Report) (hr : r.hasPosition = true) :
    ∃ m, buildMarker h r = .ok m ∧ m.handle = h ∧ m.clickArgs = [r] ∧
      r.latitude = .num m.latlng.lat ∧ r.longitude = .num m.latlng.lng ∧
      m.popup.viewArg = r.id.toText := by
  unfold Report.hasPosition at hr
  unfold buildMarker
  split at hr
  · rename_i lat lng hlat hlng
    simp [hlat, hlng]
  · simp at hr

theorem buildMarker_of_not_hasPosition (h : Nat) (r : Report) (hr : r.hasPosition = false) :
    ∃ e, buildMarker h r = .error e := by
  unfold Report.hasPosition at hr
  unfold buildMarker
  split at hr
  · simp at hr
  · rename_i hno
    split
    · rename_i lat lng hlat hlng
      exact absurd hlng (hno lat lng hlat)
    · exact ⟨_, rfl⟩
    · exact ⟨_, rfl⟩
    · exact ⟨_, rfl⟩

/-- On reports that all have a position the loop adds one marker per report, in order,
with consecutive fresh handles, and does not throw. -/
theorem addMarkers_of_hasPosition (ps : List Report) :
    ∀ (next : Nat) (layers : List Marker), (∀ r ∈ ps, r.hasPosition = true) →
      ∃ ms, addMarkers ps next layers = (layers ++ ms, next + ps.length, none) ∧
        ms.map (fun m => m.clickArgs) = ps.map (fun r => [r]) ∧
        ms.map (fun m => m.handle) = List.range' next ps.length ∧
        ms.map (fun m => (JsCoord.num m.latlng.lat, JsCoord.num m.latlng.lng)) =
          ps.map (fun r => (r.latitude, r.longitude)) ∧
        ms.map (fun m => m.popup.viewArg) = ps.map (fun r => r.id.toText) := by
  induction ps with
  | nil =>
    intro next layers _
    exact ⟨[], by simp [addMarkers], rfl, rfl, rfl, rfl⟩
  | cons r rest ih =>
    intro next layers hall
    obtain ⟨m, hm, hh, hc, hlat, hlng, hv⟩ :=
      buildMarker_of_hasPosition next r (hall r (List.mem_cons_self _ _))
    obtain ⟨ms, hms, h1, h2, h3, h4⟩ :=
      ih (next + 1) (layers ++ [m]) (fun x hx => hall x (List.mem_cons_of_mem _ hx))
    refine ⟨m :: ms, ?_, ?_, ?_, ?_, ?_⟩
    · simp only [addMarkers, hm, hms, List.length_cons]
      simp [Nat.add_comm, Nat.add_left_comm]
    · simp [hc, h1]
    · simp [hh, h2, List.range'_succ]
    · simp [hlat, hlng, h3]
    · simp [hv, h4]

/-- At the first report without a position the loop stops with an exception; the layers
are those of the reports before it. -/
theorem addMarkers_of_bad (pre : List Report) (bad : Report) (post : List Report)
    (next : Nat) (layers : List Marker) (hpre : ∀ r ∈ pre, r.hasPosition = true)
    (hbad : bad.hasPosition = false) :
    ∃ ms e, addMarkers (pre ++ bad :: post) next layers = (layers ++ ms, next + pre.length, some e) ∧
      ms.map (fun m => m.clickArgs) = pre.map (fun r => [r]) := by
  induction pre generalizing next layers with
  | nil =>
    obtain ⟨e, he⟩ := buildMarker_of_not_hasPosition next bad hbad
    exact ⟨[], e, by simp [addMarkers, he], rfl⟩
  | cons r rest ih =>
    obtain ⟨m, hm, _, hc, _⟩ :=
      buildMarker_of_hasPosition next r (hpre r (List.mem_cons_self _ _))
    obtain ⟨ms, e, hms, h1⟩ :=
      ih (next + 1) (layers ++ [m]) (fun x hx => hpre x (List.mem_cons_of_mem _ hx))
    refine ⟨m :: ms, e, ?_, ?_⟩
    · have hstep : addMarkers (r :: rest ++ bad :: post) next layers =
          addMarkers (rest ++ bad :: post) (next + 1) (layers ++ [m]) := by
        simp only [List.cons_append, addMarkers, hm]
        rfl
      rw [hstep, hms]
      simp [Nat.add_comm, Nat.add_left_comm]
    · simp [hc, h1]

/-- The update effect on a live marker layer replaces the layers by those of the loop,
whatever else it does. -/
theorem updateMarkersEffect_markers (st : MapState) (old : List Marker) (ps : List Report)
    (hlive : st.markers = some old) :
    (updateMarkersEffect (some ps) st).state.markers = some (addMarkers ps st.nextHandle []).1 ∧
    (updateMarkersEffect (some ps) st).state.nextHandle = (addMarkers ps st.nextHandle []).2.1 ∧
    (updateMarkersEffect (some ps) st).state.mapInstance.isSome = st.mapInstance.isSome := by
  unfold updateMarkersEffect
  rw [hlive]
  simp only
  split
  · simp
  · split
    · simp
    · split
      · rename_i hnone
        simp [hnone]
      · rename_i map hmap
        split <;> simp [hmap]

/-- With positions on all reports the fit-bounds policy does not throw. -/
theorem viewportCall_ok (ps : List Report) (layers : List Marker) (map : LeafletMap)
    (hps : ∀ r ∈ ps, r.hasPosition = true) :
    ∃ vc, viewportCall ps layers map = .ok vc := by
  unfold viewportCall
  split
  · exact ⟨_, rfl⟩
  · split
    · exact ⟨_, rfl⟩
    · rename_i photo
      have hp := hps photo (List.mem_singleton_self _)
      unfold Report.hasPosition at hp
      split at hp
      · split
        · exact ⟨_, rfl⟩
        · exact ⟨_, rfl⟩
      · simp at hp
    · exact ⟨_, rfl⟩

/-- The fit-bounds policy decides on no call when there are no photos or no layers. -/
theorem viewportCall_of_isEmpty (ps : List Report) (layers : List Marker) (map : LeafletMap)
    (h : (ps.isEmpty || layers.isEmpty) = true) :
    viewportCall ps layers map = .ok none := by
  unfold viewportCall
  cases layers with
  | nil => simp [markerBounds]
  | cons m ms =>
    cases ps with
    | nil => simp [markerBounds]
    | cons p rest => simp at h

/-- The whole update effect on a live map, for reports that all have a position: the old
layers are removed, one marker per report is added, and the viewport call of the policy,
if any, is performed. -/
theorem updateMarkersEffect_of_hasPosition (st : MapState) (old : List Marker)
    (map : LeafletMap) (ps : List Report) (hlive : st.markers = some old)
    (hmap : st.mapInstance = some map) (hps : ∀ r ∈ ps, r.hasPosition = true) :
    ∃ ms vc, viewportCall ps ms map = .ok vc ∧
      updateMarkersEffect (some ps) st =
        ⟨{ st with markers := some ms, nextHandle := st.nextHandle + ps.length,
                   mapInstance := some (match vc with
                     | none => map
                     | some call => map.perform call) },
          old.map (fun m => MapCall.removeLayer m.handle) ++
            ms.map (fun m => MapCall.addLayer m.handle) ++ vc.toList, none⟩ ∧
      ms.map (fun m => m.clickArgs) = ps.map (fun r => [r]) ∧
      ms.map (fun m => m.handle) = List.range' st.nextHandle ps.length ∧
      ms.map (fun m => (JsCoord.num m.latlng.lat, JsCoord.num m.latlng.lng)) =
        ps.map (fun r => (r.latitude, r.longitude)) ∧
      ms.map (fun m => m.popup.viewArg) = ps.map (fun r => r.id.toText) := by
  obtain ⟨ms, hms, h1, h2, h3, h4⟩ := addMarkers_of_hasPosition ps st.nextHandle [] hps
  obtain ⟨vc, hvc⟩ := viewportCall_ok ps ms map hps
  refine ⟨ms, vc, hvc, ?_, h1, h2, h3, h4⟩
  unfold updateMarkersEffect
  rw [hlive]
  simp only [hms, List.nil_append, hmap]
  by_cases hemp : (ps.isEmpty || ms.isEmpty) = true
  · have hnone := viewportCall_of_isEmpty ps ms map hemp
    rw [hvc] at hnone
    cases hnone
    simp [hemp, ← hmap]
  · simp only [hemp, hvc]
    cases vc with
    | none => simp [← hmap]
    | some call => simp

theorem buildMarker_handle (h : Nat) (r : Report) (m : Marker)
    (hm : buildMarker h r = .ok m) : m.handle = h := by
  unfold buildMarker at hm
  split at hm
  · cases hm
    rfl
  · cases hm
  · cases hm
  · cases hm

/-- Whatever the reports, the markers the loop adds carry consecutive handles from `next`
on, and the next free handle lies past them. -/
theorem addMarkers_handles (ps : List Report) :
    ∀ (next : Nat) (layers : List Marker),
      ∃ ms, (addMarkers ps next layers).1 = layers ++ ms ∧
        ms.map (fun m => m.handle) = List.range' next ms.length ∧
        (addMarkers ps next layers).2.1 = next + ms.length := by
  induction ps with
  | nil =>
    intro next layers
    exact ⟨[], by simp [addMarkers], rfl, by simp [addMarkers]⟩
  | cons r rest ih =>
    intro next layers
    cases hb : buildMarker next r with
    | error e => exact ⟨[], by simp [addMarkers, hb], rfl, by simp [addMarkers, hb]⟩
    | ok m =>
      obtain ⟨ms, h1, h2, h3⟩ := ih (next + 1) (layers ++ [m])
      refine ⟨m :: ms, ?_, ?_, ?_⟩
      · simp only [addMarkers, hb]
        rw [h1]
        simp
      · simp [buildMarker_handle next r m hb, h2, List.range'_succ]
      · simp only [addMarkers, hb]
        rw [h3]
        simp [Nat.add_comm, Nat.add_left_comm]

theorem flatMap_ids_of_clickArgs (ms : List Marker) :
    ∀ ps : List Report, ms.map (fun m => m.clickArgs) = ps.map (fun r => [r]) →
      ms.flatMap (fun m => m.clickArgs.map (fun r => r.id)) = ps.map (fun r => r.id) := by
  induction ms with
  | nil =>
    intro ps h
    cases ps with
    | nil => rfl
    | cons p rest => simp at h
  | cons m rest ih =>
    intro ps h
    cases ps with
    | nil => simp at h
    | cons p ps =>
      simp only [List.map_cons, List.cons.injEq] at h
      simp [h.1, ih ps h.2]

/-- A call decided by the fit-bounds policy is a viewport call, not a layer call. -/
theorem viewportCall_isViewport (ps : List Report) (layers : List Marker) (map : LeafletMap)
    (c : MapCall) (h : viewportCall ps layers map = .ok (some c)) :
    c.isViewport = true ∧ c.isAdd = false ∧ c.isRemove = false := by
  unfold viewportCall at h
  split at h
  · cases h
  · split at h
    · cases h
    · split at h
      · split at h
        · cases h
        · cases h
          exact ⟨rfl, rfl, rfl⟩
      · cases h
    · cases h
      exact ⟨rfl, rfl, rfl⟩

theorem filter_isRemove_calls (old ms : List Marker) (vc : Option MapCall)
    (hvc : ∀ c, vc = some c → c.isRemove = false) :
    (old.map (fun m => MapCall.removeLayer m.handle) ++
      ms.map (fun m => MapCall.addLayer m.handle) ++ vc.toList).filter MapCall.isRemove =
    old.map (fun m => MapCall.removeLayer m.handle) := by
  have h1 : (old.map (fun m => MapCall.removeLayer m.handle)).filter MapCall.isRemove =
      old.map (fun m => MapCall.removeLayer m.handle) := by
    simp [List.filter_eq_self, MapCall.isRemove]
  have h2 : (ms.map (fun m => MapCall.addLayer m.handle)).filter MapCall.isRemove = [] := by
    simp [List.filter_eq_nil_iff, MapCall.isRemove]
  have h3 : vc.toList.filter MapCall.isRemove = [] := by
    cases vc with
    | none => rfl
    | some c => simp [Option.toList, hvc c rfl]
  rw [List.filter_append, List.filter_append, h1, h2, h3]
  simp

theorem filter_isAdd_calls (old ms : List Marker) (vc : Option MapCall)
    (hvc : ∀ c, vc = some c → c.isAdd = false) :
    (old.map (fun m => MapCall.removeLayer m.handle) ++
      ms.map (fun m => MapCall.addLayer m.handle) ++ vc.toList).filter MapCall.isAdd =
    ms.map (fun m => MapCall.addLayer m.handle) := by
  have h1 : (old.map (fun m => MapCall.removeLayer m.handle)).filter MapCall.isAdd = [] := by
    simp [List.filter_eq_nil_iff, MapCall.isAdd]
  have h2 : (ms.map (fun m => MapCall.addLayer m.handle)).filter MapCall.isAdd =
      ms.map (fun m => MapCall.addLayer m.handle) := by
    simp [List.filter_eq_self, MapCall.isAdd]
  have h3 : vc.toList.filter MapCall.isAdd = [] := by
    cases vc with
    | none => rfl
    | some c => simp [Option.toList, hvc c rfl]
  rw [List.filter_append, List.filter_append, h1, h2, h3]
  simp

/-- The layer calls of one run of the update effect on a live map, for reports that all
have a position: every old layer is removed, and one new marker per report is added,
with the handles from `nextHandle` on. -/
theorem updateMarkersEffect_layer_calls (st : MapState) (old : List Marker)
    (map : LeafletMap) (ps : List Report) (hlive : st.markers = some old)
    (hmap : st.mapInstance = some map) (hps : ∀ r ∈ ps, r.hasPosition = true) :
    ∃ ms, (updateMarkersEffect (some ps) st).state.markers = some ms ∧
      (updateMarkersEffect (some ps) st).calls.filter MapCall.isRemove =
        old.map (fun m => MapCall.removeLayer m.handle) ∧
      (updateMarkersEffect (some ps) st).calls.filter MapCall.isAdd =
        ms.map (fun m => MapCall.addLayer m.handle) ∧
      ms.map (fun m => m.handle) = List.range' st.nextHandle ps.length ∧
      ms.map (fun m => m.clickArgs) = ps.map (fun r => [r]) ∧
      ms.map (fun m => (JsCoord.num m.latlng.lat, JsCoord.num m.latlng.lng)) =
        ps.map (fun r => (r.latitude, r.longitude)) := by
  obtain ⟨ms, vc, hvc, heq, hclick, hhandle, hpos, _⟩ :=
    updateMarkersEffect_of_hasPosition st old map ps hlive hmap hps
  refine ⟨ms, by rw [heq], ?_, ?_, hhandle, hclick, hpos⟩
  · rw [heq]
    exact filter_isRemove_calls old ms vc
      (fun c hc => (viewportCall_isViewport ps ms map c (hc ▸ hvc)).2.2)
  · rw [heq]
    exact filter_isAdd_calls old ms vc
      (fun c hc => (viewportCall_isViewport ps ms map c (hc ▸ hvc)).2.1)

/-- After a run of the update effect on a live layer every live handle lies below the next
free handle and at or above the one the run started from. -/
theorem updateMarkersEffect_handles_lt (st : MapState) (old : List Marker) (ps : List Report)
    (hlive : st.markers = some old) :
    ∀ h ∈ (updateMarkersEffect (some ps) st).state.liveHandles,
      h < (updateMarkersEffect (some ps) st).state.nextHandle := by
  obtain ⟨hm, hn, _⟩ := updateMarkersEffect_markers st old ps hlive
  obtain ⟨ms, h1, h2, h3⟩ := addMarkers_handles ps st.nextHandle []
  intro h hh
  simp only [MapState.liveHandles, hm, Option.getD_some, h1, List.nil_append, h2] at hh
  rw [hn, h3]
  rw [List.mem_range'_1] at hh
  exact hh.2

theorem map_latlng_of_coords (ms : List Marker) (ps : List Report)
    (h : ms.map (fun m => (JsCoord.num m.latlng.lat, JsCoord.num m.latlng.lng)) =
      ps.map (fun r => (r.latitude, r.longitude))) :
    ms.map (fun m => some m.latlng) = ps.map Report.position := by
  have := congrArg (List.map (fun c : JsCoord × JsCoord => coordsPosition c.1 c.2)) h
  simpa [List.map_map, Function.comp_def, coordsPosition, Report.position] using this

/-! ## Lemmas on the viewport -/

theorem includes_contains (outer inner : LatLngBounds) (p : LatLng)
    (h : outer.includes inner) (hp : inner.contains p) : outer.contains p := by
  obtain ⟨h1, h2, h3, h4⟩ := h
  obtain ⟨p1, p2, p3, p4⟩ := hp
  exact ⟨le_trans h1 p1, le_trans p2 h2, le_trans h3 p3, le_trans p4 h4⟩

/-- Folding `extend` over marker positions yields the least rectangle that covers the
start rectangle and every position. -/
theorem foldl_extend_least (ms : List Marker) :
    ∀ b0 : LatLngBounds,
      (ms.foldl (fun b x => b.extend x.latlng) b0).includes b0 ∧
      (∀ x ∈ ms, (ms.foldl (fun b x => b.extend x.latlng) b0).contains x.latlng) ∧
      ∀ b' : LatLngBounds, b'.includes b0 → (∀ x ∈ ms, b'.contains x.latlng) →
        b'.includes (ms.foldl (fun b x => b.extend x.latlng) b0) := by
  induction ms with
  | nil =>
    intro b0
    exact ⟨⟨le_refl _, le_refl _, le_refl _, le_refl _⟩, by simp, fun b' h _ => h⟩
  | cons m rest ih =>
    intro b0
    obtain ⟨h1, h2, h3⟩ := ih (b0.extend m.latlng)
    have hext : (b0.extend m.latlng).includes b0 :=
      ⟨min_le_right _ _, le_max_right _ _, min_le_right _ _, le_max_right _ _⟩
    have hself : (b0.extend m.latlng).contains m.latlng :=
      ⟨min_le_left _ _, le_max_left _ _, min_le_left _ _, le_max_left _ _⟩
    refine ⟨?_, ?_, ?_⟩
    · obtain ⟨a1, a2, a3, a4⟩ := h1
      obtain ⟨e1, e2, e3, e4⟩ := hext
      exact ⟨le_trans a1 e1, le_trans e2 a2, le_trans a3 e3, le_trans e4 a4⟩
    · intro x hx
      rcases List.mem_cons.mp hx with rfl | hx
      · exact includes_contains _ _ _ h1 hself
      · exact h2 x hx
    · intro b' hb0 hall
      apply h3 b'
      · obtain ⟨c1, c2, c3, c4⟩ := hb0
        obtain ⟨p1, p2, p3, p4⟩ := hall m (List.mem_cons_self _ _)
        exact ⟨le_min p1 c1, max_le p2 c2, le_min p3 c3, max_le p4 c4⟩
      · intro x hx
        exact hall x (List.mem_cons_of_mem _ hx)

/-- The bounds of a marker group: the least rectangle that contains every marker position. -/
theorem markerBounds_least (ms : List Marker) (b : LatLngBounds)
    (h : markerBounds ms = some b) :
    (∀ x ∈ ms, b.contains x.latlng) ∧
      ∀ b' : LatLngBounds, (∀ x ∈ ms, b'.contains x.latlng) → b'.includes b := by
  cases ms with
  | nil => simp [markerBounds] at h
  | cons m rest =>
    simp only [markerBounds, Option.some.injEq] at h
    subst h
    obtain ⟨h1, h2, h3⟩ := foldl_extend_least rest ⟨m.latlng, m.latlng⟩
    refine ⟨?_, ?_⟩
    · intro x hx
      rcases List.mem_cons.mp hx with rfl | hx
      · obtain ⟨a1, a2, a3, a4⟩ := h1
        exact ⟨a1, a2, a3, a4⟩
      · exact h2 x hx
    · intro b' hall
      apply h3 b'
      · obtain ⟨p1, p2, p3, p4⟩ := hall m (List.mem_cons_self _ _)
        exact ⟨p1, p2, p3, p4⟩
      · intro x hx
        exact hall x (List.mem_cons_of_mem _ hx)

theorem filter_isViewport_calls (old ms : List Marker) (vc : Option MapCall)
    (hvc : ∀ c, vc = some c → c.isViewport = true) :
    (old.map (fun m => MapCall.removeLayer m.handle) ++
      ms.map (fun m => MapCall.addLayer m.handle) ++ vc.toList).filter MapCall.isViewport =
    vc.toList := by
  have h1 : (old.map (fun m => MapCall.removeLayer m.handle)).filter MapCall.isViewport = [] := by
    simp [List.filter_eq_nil_iff, MapCall.isViewport]
  have h2 : (ms.map (fun m => MapCall.addLayer m.handle)).filter MapCall.isViewport = [] := by
    simp [List.filter_eq_nil_iff, MapCall.isViewport]
  have h3 : vc.toList.filter MapCall.isViewport = vc.toList := by
    cases vc with
    | none => rfl
    | some c => simp [Option.toList, hvc c rfl]
  rw [List.filter_append, List.filter_append, h1, h2, h3]
  simp

theorem position_eq_some (r : Report) (P : LatLng) (h : r.position = some P) :
    r.latitude = .num P.lat ∧ r.longitude = .num P.lng ∧ r.hasPosition = true := by
  unfold Report.position coordsPosition at h
  unfold Report.hasPosition
  split at h
  · rename_i lat lng hlat hlng
    cases h
    simp [hlat, hlng]
  · cases h

theorem mem_markers_of_position (ms : List Marker) (R : List Report)
    (hpos : ms.map (fun m => some m.latlng) = R.map Report.position) :
    (∀ r ∈ R, ∀ p, r.position = some p → ∃ x ∈ ms, x.latlng = p) ∧
      ∀ x ∈ ms, ∃ r ∈ R, r.position = some x.latlng := by
  constructor
  · intro r hr p hp
    have hmem : some p ∈ R.map Report.position := List.mem_map.mpr ⟨r, hr, hp⟩
    rw [← hpos] at hmem
    obtain ⟨x, hx, hxp⟩ := List.mem_map.mp hmem
    exact ⟨x, hx, Option.some.inj hxp⟩
  · intro x hx
    have hmem : some x.latlng ∈ ms.map (fun m => some m.latlng) :=
      List.mem_map.mpr ⟨x, hx, rfl⟩
    rw [hpos] at hmem
    obtain ⟨r, hr, hrp⟩ := List.mem_map.mp hmem
    exact ⟨r, hr, hrp⟩

/-! ## Lemmas on the update effect over any Leaflet -/

theorem viewportCallOn_model (ps : List Report) (layers : List Marker) (map : LeafletMap) :
    viewportCallOn modelLeaflet ps layers map = viewportCall ps layers map := rfl

theorem perform_model (map : LeafletMap) (call : MapCall) :
    modelLeaflet.perform map call = map.perform call := by
  cases call <;> rfl

/-- With the idealised map for the Leaflet methods the effect is `updateMarkersEffect`. -/
theorem updateMarkersEffectOn_model (photos : Option (List Report)) (st : MapState) :
    updateMarkersEffectOn modelLeaflet photos st = updateMarkersEffect photos st := by
  rfl

/-- With positions on all reports the fit-bounds policy does not throw. -/
theorem viewportCallOn_ok (leaflet : Leaflet) (ps : List Report) (layers : List Marker)
    (map : LeafletMap) (hps : ∀ r ∈ ps, r.hasPosition = true) :
    ∃ vc, viewportCallOn leaflet ps layers map = .ok vc := by
  unfold viewportCallOn
  cases markerBounds layers with
  | none => exact ⟨_, rfl⟩
  | some b =>
    match ps, hps with
    | [], _ => exact ⟨_, rfl⟩
    | [photo], hps =>
      have hp := hps photo (List.mem_singleton_self _)
      cases hpos : photo.position with
      | none =>
        unfold Report.hasPosition at hp
        unfold Report.position coordsPosition at hpos
        split at hp
        · rename_i lat lng hlat hlng
          simp [hlat, hlng] at hpos
        · simp at hp
      | some P =>
        obtain ⟨hlat, hlng, _⟩ := position_eq_some photo P hpos
        simp only [hlat, hlng]
        by_cases h : (leaflet.getBounds map).contains P
        · exact ⟨none, by rw [if_pos h]⟩
        · exact ⟨some (.setView P 15), by rw [if_neg h]⟩
    | _ :: _ :: _, _ => exact ⟨_, rfl⟩

theorem viewportCallOn_of_isEmpty (leaflet : Leaflet) (ps : List Report)
    (layers : List Marker) (map : LeafletMap) (h : (ps.isEmpty || layers.isEmpty) = true) :
    viewportCallOn leaflet ps layers map = .ok none := by
  unfold viewportCallOn
  cases layers with
  | nil => simp [markerBounds]
  | cons m ms =>
    cases ps with
    | nil => simp [markerBounds]
    | cons p rest => simp at h

theorem viewportCallOn_isViewport (leaflet : Leaflet) (ps : List Report)
    (layers : List Marker) (map : LeafletMap) (c : MapCall)
    (h : viewportCallOn leaflet ps layers map = .ok (some c)) : c.isViewport = true := by
  unfold viewportCallOn at h
  split at h
  · cases h
  · split at h
    · cases h
    · split at h
      · split at h
        · cases h
        · cases h
          rfl
      · cases h
    · cases h
      rfl

/-- The whole update effect on a live map, for reports that all have a position and any
Leaflet methods: the old layers are removed, one marker per report is added, and the
viewport call of the policy, if any, is performed. -/
theorem updateMarkersEffectOn_of_hasPosition (leaflet : Leaflet) (st : MapState)
    (old : List Marker) (map : LeafletMap) (ps : List Report) (hlive : st.markers = some old)
    (hmap : st.mapInstance = some map) (hps : ∀ r ∈ ps, r.hasPosition = true) :
    ∃ ms vc, viewportCallOn leaflet ps ms map = .ok vc ∧
      updateMarkersEffectOn leaflet (some ps) st =
        ⟨{ st with markers := some ms, nextHandle := st.nextHandle + ps.length,
                   mapInstance := some (match vc with
                     | none => map
                     | some call => leaflet.perform map call) },
          old.map (fun m => MapCall.removeLayer m.handle) ++
            ms.map (fun m => MapCall.addLayer m.handle) ++ vc.toList, none⟩ ∧
      ms.map (fun m => (JsCoord.num m.latlng.lat, JsCoord.num m.latlng.lng)) =
        ps.map (fun r => (r.latitude, r.longitude)) := by
  obtain ⟨ms, hms, _, _, h3, _⟩ := addMarkers_of_hasPosition ps st.nextHandle [] hps
  obtain ⟨vc, hvc⟩ := viewportCallOn_ok leaflet ps ms map hps
  refine ⟨ms, vc, hvc, ?_, h3⟩
  unfold updateMarkersEffectOn
  rw [hlive]
  simp only [hms, List.nil_append, hmap]
  by_cases hemp : (ps.isEmpty || ms.isEmpty) = true
  · have hnone := viewportCallOn_of_isEmpty leaflet ps ms map hemp
    rw [hvc] at hnone
    cases hnone
    simp [hemp, ← hmap]
  · simp only [hemp, hvc]
    cases vc with
    | none => simp [← hmap]
    | some call => simp

/-- The viewport part of one run of the update effect on a live map, for reports that all
have a position and any Leaflet methods: the run completes, the call the policy decides
on is its only viewport call, and the map is the old one with that call performed. -/
theorem updateMarkersEffectOn_viewport (leaflet : Leaflet) (st : MapState)
    (old : List Marker) (map : LeafletMap) (ps : List Report) (hlive : st.markers = some old)
    (hmap : st.mapInstance = some map) (hps : ∀ r ∈ ps, r.hasPosition = true) :
    ∃ ms vc, viewportCallOn leaflet ps ms map = .ok vc ∧
      (updateMarkersEffectOn leaflet (some ps) st).state.markers = some ms ∧
      (updateMarkersEffectOn leaflet (some ps) st).error = none ∧
      (updateMarkersEffectOn leaflet (some ps) st).calls.filter MapCall.isViewport =
        vc.toList ∧
      (updateMarkersEffectOn leaflet (some ps) st).state.mapInstance =
        some (match vc with
          | none => map
          | some call => leaflet.perform map call) ∧
      ms.map (fun m => some m.latlng) = ps.map Report.position := by
  obtain ⟨ms, vc, hvc, heq, hpos⟩ :=
    updateMarkersEffectOn_of_hasPosition leaflet st old map ps hlive hmap hps
  refine ⟨ms, vc, hvc, by rw [heq], by rw [heq], ?_, by rw [heq],
    map_latlng_of_coords ms ps hpos⟩
  rw [heq]
  exact filter_isViewport_calls old ms vc
    (fun c hc => viewportCallOn_isViewport leaflet ps ms map c (hc ▸ hvc))

theorem viewportCallOn_single (leaflet : Leaflet) (p : Report) (P : LatLng)
    (ms : List Marker) (map : LeafletMap) (hP : p.position = some P) (hms : ms ≠ []) :
    viewportCallOn leaflet [p] ms map =
      .ok (if (leaflet.getBounds map).contains P then none else some (.setView P 15)) := by
  obtain ⟨hlat, hlng, _⟩ := position_eq_some p P hP
  cases ms with
  | nil => exact absurd rfl hms
  | cons m rest =>
    simp only [viewportCallOn, markerBounds, hlat, hlng]
    split <;> rfl

theorem viewportCallOn_many (leaflet : Leaflet) (p q : Report) (rest : List Report)
    (ms : List Marker) (map : LeafletMap) (hms : ms ≠ []) :
    ∃ b, markerBounds ms = some b ∧
      viewportCallOn leaflet (p :: q :: rest) ms map = .ok (some (.fitBounds b 20 20)) := by
  cases ms with
  | nil => exact absurd rfl hms
  | cons m tail => exact ⟨_, rfl, rfl⟩

/-! ## Lemmas on lists with reports that lack a position -/

/-- Whatever the reports, the loop adds one marker per report of the longest initial run
of reports that have a position, each with one click listener that passes its report. -/
theorem addMarkers_takeWhile (ps : List Report) :
    ∀ (next : Nat) (layers : List Marker),
      ∃ ms, (addMarkers ps next layers).1 = layers ++ ms ∧
        ms.map (fun m => m.clickArgs) =
          (ps.takeWhile Report.hasPosition).map (fun r => [r]) := by
  induction ps with
  | nil =>
    intro next layers
    exact ⟨[], by simp [addMarkers], rfl⟩
  | cons r rest ih =>
    intro next layers
    cases hr : r.hasPosition with
    | true =>
      obtain ⟨m, hm, _, hc, _⟩ := buildMarker_of_hasPosition next r hr
      obtain ⟨ms, h1, h2⟩ := ih (next + 1) (layers ++ [m])
      refine ⟨m :: ms, ?_, ?_⟩
      · simp only [addMarkers, hm]
        rw [h1]
        simp
      · simp [List.takeWhile_cons, hr, hc, h2]
    | false =>
      obtain ⟨e, he⟩ := buildMarker_of_not_hasPosition next r hr
      exact ⟨[], by simp [addMarkers, he], by simp [List.takeWhile_cons, hr]⟩

/-- The live markers after a run of the update effect on a live layer are bound, one
each, to the reports of the longest initial run of reports that have a position. -/
theorem updateMarkersEffect_clickArgs (st : MapState) (old : List Marker) (ps : List Report)
    (hlive : st.markers = some old) :
    ∃ ms, (updateMarkersEffect (some ps) st).state.markers = some ms ∧
      ms.map (fun m => m.clickArgs) =
        (ps.takeWhile Report.hasPosition).map (fun r => [r]) := by
  obtain ⟨hm, _, _⟩ := updateMarkersEffect_markers st old ps hlive
  obtain ⟨ms, h1, h2⟩ := addMarkers_takeWhile ps st.nextHandle []
  exact ⟨ms, by rw [hm, h1, List.nil_append], h2⟩

theorem takeWhile_of_all (ps : List Report) (h : ∀ r ∈ ps, r.hasPosition = true) :
    ps.takeWhile Report.hasPosition = ps := by
  rw [List.takeWhile_eq_self_iff]
  exact h

/-! ## The claims -/

/-- C1, counterexample: the string-id report reconciled first, then a list whose second
report lacks its latitude.  The second run binds a marker to id 1 only, so the ids 7 and
2 of the new list have no marker. -/
theorem reconcile_leaves_ids_without_marker :
    (updateMarkersEffect (some [exampleReport1, reportWithoutLatitude, exampleReport2])
      (updateMarkersEffect (some [exampleReport3]) liveState).state).state.liveIds =
      [JsId.num 1] ∧
    [exampleReport1, reportWithoutLatitude, exampleReport2].map (fun r => r.id) =
      [JsId.num 1, JsId.num 7, JsId.num 2] := by
  decide!

/-- C1, amended: for report lists R1 then R2 reconciled in sequence on a live map, whatever
R1 was, no id outside R2 is bound to a live marker after the second run, and the ids bound
are those of the reports of R2 before the first one that lacks a numeric latitude or
longitude.  When every report of R2 has numeric coordinates the second run completes and
the ids bound to live markers are exactly the ids of R2: none is left over and none lacks
a marker. -/
theorem reconcile_liveIds_exact (st : MapState) (old : List Marker) (map : LeafletMap)
    (R1 R2 : List Report) (hlive : st.markers = some old) (hmap : st.mapInstance = some map) :
    (∀ i ∈ (updateMarkersEffect (some R2)
        (updateMarkersEffect (some R1) st).state).state.liveIds, ∃ r ∈ R2, r.id = i) ∧
    ((updateMarkersEffect (some R2) (updateMarkersEffect (some R1) st).state).state.liveIds).Perm
      ((R2.takeWhile Report.hasPosition).map (fun r => r.id)) ∧
    ((∀ r ∈ R2, r.hasPosition = true) →
      (updateMarkersEffect (some R2) (updateMarkersEffect (some R1) st).state).error = none ∧
      ((updateMarkersEffect (some R2)
        (updateMarkersEffect (some R1) st).state).state.liveIds).Perm (R2.map (fun r => r.id)) ∧
      ∀ i, i ∈ (updateMarkersEffect (some R2)
          (updateMarkersEffect (some R1) st).state).state.liveIds ↔ ∃ r ∈ R2, r.id = i) := by
  obtain ⟨hm1, _, hi1⟩ := updateMarkersEffect_markers st old R1 hlive
  rw [hmap] at hi1
  obtain ⟨map1, hmap1⟩ := Option.isSome_iff_exists.mp hi1
  obtain ⟨ms, hms, hclick⟩ := updateMarkersEffect_clickArgs _ _ R2 hm1
  have hids : (updateMarkersEffect (some R2)
      (updateMarkersEffect (some R1) st).state).state.liveIds =
      (R2.takeWhile Report.hasPosition).map (fun r => r.id) := by
    simp only [MapState.liveIds, hms, Option.getD_some]
    exact flatMap_ids_of_clickArgs ms _ hclick
  refine ⟨?_, by rw [hids], ?_⟩
  · intro i hi
    rw [hids] at hi
    obtain ⟨r, hr, hri⟩ := List.mem_map.mp hi
    exact ⟨r, (List.takeWhile_prefix Report.hasPosition).subset hr, hri⟩
  · intro hR2
    obtain ⟨ms', vc, _, heq, _⟩ :=
      updateMarkersEffect_of_hasPosition _ _ map1 R2 hm1 hmap1 hR2
    rw [takeWhile_of_all R2 hR2] at hids
    refine ⟨by rw [heq], by rw [hids], ?_⟩
    intro i
    rw [hids]
    simp

/-- C1, witness: the second example report reconciled first, then both example reports;
the ids bound afterwards are 1 and 2. -/
theorem reconcile_liveIds_exact_witness :
    (updateMarkersEffect (some [exampleReport1, exampleReport2])
      (updateMarkersEffect (some [exampleReport2]) liveState).state).error = none ∧
    ((updateMarkersEffect (some [exampleReport1, exampleReport2])
      (updateMarkersEffect (some [exampleReport2]) liveState).state).state.liveIds).Perm
      ([exampleReport1, exampleReport2].map (fun r => r.id)) ∧
    ∀ i, i ∈ (updateMarkersEffect (some [exampleReport1, exampleReport2])
        (updateMarkersEffect (some [exampleReport2]) liveState).state).state.liveIds ↔
      ∃ r ∈ [exampleReport1, exampleReport2], r.id = i :=
  (reconcile_liveIds_exact liveState [] (LeafletMap.create 800 600) [exampleReport2]
    [exampleReport1, exampleReport2] rfl rfl).2.2 (by decide)

/-- C2, counterexample: reconciling the two example reports twice in a row, the second
run removes both markers of the first run and adds two new ones. -/
theorem reconcile_twice_not_silent :
    (updateMarkersEffect (some [exampleReport1, exampleReport2])
      (updateMarkersEffect (some [exampleReport1, exampleReport2]) liveState).state).calls.filter
        (fun c => c.isAdd || c.isRemove) =
      [.removeLayer 0, .removeLayer 1, .addLayer 2, .addLayer 3] := by
  decide

/-- C2, amended: reconciling the same list R (every report with a position) twice in a
row on a live map, the second run removes exactly the markers the first run left, one per
report, and adds one new marker per report; the ids bound to the markers and the marker
positions after the second run are those after the first. -/
theorem reconcile_twice_same_binding (st : MapState) (old : List Marker) (map : LeafletMap)
    (R : List Report) (hlive : st.markers = some old) (hmap : st.mapInstance = some map)
    (hR : ∀ r ∈ R, r.hasPosition = true) :
    (updateMarkersEffect (some R) (updateMarkersEffect (some R) st).state).calls.filter
        MapCall.isRemove =
      (updateMarkersEffect (some R) st).state.liveHandles.map MapCall.removeLayer ∧
    ((updateMarkersEffect (some R) (updateMarkersEffect (some R) st).state).calls.filter
        MapCall.isRemove).length = R.length ∧
    ((updateMarkersEffect (some R) (updateMarkersEffect (some R) st).state).calls.filter
        MapCall.isAdd).length = R.length ∧
    (updateMarkersEffect (some R) (updateMarkersEffect (some R) st).state).state.liveIds =
      (updateMarkersEffect (some R) st).state.liveIds ∧
    ((updateMarkersEffect (some R) (updateMarkersEffect (some R) st).state).state.markers.getD
        []).map (fun m => m.latlng) =
      ((updateMarkersEffect (some R) st).state.markers.getD []).map (fun m => m.latlng) := by
  obtain ⟨ms1, hm1, _, _, hh1, hc1, hp1⟩ :=
    updateMarkersEffect_layer_calls st old map R hlive hmap hR
  obtain ⟨_, _, hi1⟩ := updateMarkersEffect_markers st old R hlive
  rw [hmap] at hi1
  obtain ⟨map1, hmap1⟩ := Option.isSome_iff_exists.mp hi1
  obtain ⟨ms2, hm2, hrem, hadd, hh2, hc2, hp2⟩ :=
    updateMarkersEffect_layer_calls _ ms1 map1 R hm1 hmap1 hR
  have hlen1 : ms1.length = R.length := by
    simpa using congrArg List.length hc1
  have hlen2 : ms2.length = R.length := by
    simpa using congrArg List.length hc2
  refine ⟨?_, ?_, ?_, ?_, ?_⟩
  · rw [hrem]
    simp [MapState.liveHandles, hm1]
  · rw [hrem]
    simpa using hlen1
  · rw [hadd]
    simpa using hlen2
  · simp only [MapState.liveIds, hm1, hm2, Option.getD_some]
    rw [flatMap_ids_of_clickArgs ms2 R hc2, flatMap_ids_of_clickArgs ms1 R hc1]
  · simp only [hm1, hm2, Option.getD_some]
    have h1 := map_latlng_of_coords ms1 R hp1
    have h2 := map_latlng_of_coords ms2 R hp2
    have h3 : ms2.map (fun m => some m.latlng) = ms1.map (fun m => some m.latlng) := by
      rw [h1, h2]
    have h4 := congrArg (List.map (fun o : Option LatLng => o.getD ⟨0, 0⟩)) h3
    simpa [List.map_map, Function.comp_def] using h4

/-- C2, witness: the first example report reconciled twice on the live map. -/
theorem reconcile_twice_same_binding_witness :
    (updateMarkersEffect (some [exampleReport1])
        (updateMarkersEffect (some [exampleReport1]) liveState).state).calls.filter
        MapCall.isRemove =
      (updateMarkersEffect (some [exampleReport1]) liveState).state.liveHandles.map
        MapCall.removeLayer ∧
    ((updateMarkersEffect (some [exampleReport1])
        (updateMarkersEffect (some [exampleReport1]) liveState).state).calls.filter
        MapCall.isRemove).length = [exampleReport1].length ∧
    ((updateMarkersEffect (some [exampleReport1])
        (updateMarkersEffect (some [exampleReport1]) liveState).state).calls.filter
        MapCall.isAdd).length = [exampleReport1].length ∧
    (updateMarkersEffect (some [exampleReport1])
        (updateMarkersEffect (some [exampleReport1]) liveState).state).state.liveIds =
      (updateMarkersEffect (some [exampleReport1]) liveState).state.liveIds ∧
    ((updateMarkersEffect (some [exampleReport1])
        (updateMarkersEffect (some [exampleReport1]) liveState).state).state.markers.getD
        []).map (fun m => m.latlng) =
      ((updateMarkersEffect (some [exampleReport1]) liveState).state.markers.getD []).map
        (fun m => m.latlng) :=
  reconcile_twice_same_binding liveState [] (LeafletMap.create 800 600) [exampleReport1]
    rfl rfl (by decide)

/-- C3, counterexample: the two example reports persist across the second reconcile, yet
their markers are other objects afterwards: handles 0 and 1 are removed and the reports
are bound to the new handles 2 and 3. -/
theorem persisting_marker_recreated :
    ((updateMarkersEffect (some [exampleReport1, exampleReport2])
        liveState).state.markers.getD []).map
        (fun m => (m.handle, m.clickArgs.map (fun r => r.id))) =
      [(0, [JsId.num 1]), (1, [JsId.num 2])] ∧
    ((updateMarkersEffect (some [exampleReport1, exampleReport2])
        (updateMarkersEffect (some [exampleReport1, exampleReport2])
          liveState).state).state.markers.getD []).map
        (fun m => (m.handle, m.clickArgs.map (fun r => r.id))) =
      [(2, [JsId.num 1]), (3, [JsId.num 2])] ∧
    (updateMarkersEffect (some [exampleReport1, exampleReport2])
        (updateMarkersEffect (some [exampleReport1, exampleReport2])
          liveState).state).calls.filter MapCall.isRemove =
      [.removeLayer 0, .removeLayer 1] := by
  decide

/-- C3, amended: for report lists R1 then R2 reconciled in sequence on a live map (R2 with
a position on every report), the second reconcile removes every marker the first one
left, whether or not its report persists, and binds each report of R2 to a newly created
marker: no handle live after the second run was live before it, and each new marker
stands at the position of its report. -/
theorem reconcile_recreates_markers (st : MapState) (old : List Marker) (map : LeafletMap)
    (R1 R2 : List Report) (hlive : st.markers = some old) (hmap : st.mapInstance = some map)
    (hR2 : ∀ r ∈ R2, r.hasPosition = true) :
    (updateMarkersEffect (some R2) (updateMarkersEffect (some R1) st).state).calls.filter
        MapCall.isRemove =
      (updateMarkersEffect (some R1) st).state.liveHandles.map MapCall.removeLayer ∧
    (∀ h ∈ (updateMarkersEffect (some R2)
        (updateMarkersEffect (some R1) st).state).state.liveHandles,
      h ∉ (updateMarkersEffect (some R1) st).state.liveHandles) ∧
    ∃ ms, (updateMarkersEffect (some R2)
        (updateMarkersEffect (some R1) st).state).state.markers = some ms ∧
      ms.map (fun m => m.clickArgs) = R2.map (fun r => [r]) ∧
      ms.map (fun m => some m.latlng) = R2.map Report.position := by
  obtain ⟨hm1, _, hi1⟩ := updateMarkersEffect_markers st old R1 hlive
  have hlt := updateMarkersEffect_handles_lt st old R1 hlive
  rw [hmap] at hi1
  obtain ⟨map1, hmap1⟩ := Option.isSome_iff_exists.mp hi1
  obtain ⟨ms2, hm2, hrem, _, hh2, hc2, hp2⟩ :=
    updateMarkersEffect_layer_calls _ _ map1 R2 hm1 hmap1 hR2
  refine ⟨?_, ?_, ms2, hm2, hc2, map_latlng_of_coords ms2 R2 hp2⟩
  · rw [hrem]
    simp [MapState.liveHandles, hm1]
  · intro h hh hold
    have h1 := hlt h hold
    simp only [MapState.liveHandles, hm2, Option.getD_some, hh2] at hh
    rw [List.mem_range'_1] at hh
    omega

/-- C3, witness: the first example report, then both reports in the other order. -/
theorem reconcile_recreates_markers_witness :
    (updateMarkersEffect (some [exampleReport2, exampleReport1])
        (updateMarkersEffect (some [exampleReport1]) liveState).state).calls.filter
        MapCall.isRemove =
      (updateMarkersEffect (some [exampleReport1]) liveState).state.liveHandles.map
        MapCall.removeLayer ∧
    (∀ h ∈ (updateMarkersEffect (some [exampleReport2, exampleReport1])
        (updateMarkersEffect (some [exampleReport1]) liveState).state).state.liveHandles,
      h ∉ (updateMarkersEffect (some [exampleReport1]) liveState).state.liveHandles) ∧
    ∃ ms, (updateMarkersEffect (some [exampleReport2, exampleReport1])
        (updateMarkersEffect (some [exampleReport1]) liveState).state).state.markers = some ms ∧
      ms.map (fun m => m.clickArgs) = [exampleReport2, exampleReport1].map (fun r => [r]) ∧
      ms.map (fun m => some m.latlng) = [exampleReport2, exampleReport1].map Report.position :=
  reconcile_recreates_markers liveState [] (LeafletMap.create 800 600) [exampleReport1]
    [exampleReport2, exampleReport1] rfl rfl (by decide)

/-- C4, the code at the failing input: after the first commit with the reports of the
example scenario (numeric ids 1 and 2) and a report with a string id, a click on a marker
calls `onMarkerClick` once with its report, but the View Details button of the markers
with numeric ids calls it not at all: the markup passes the text of the id and
`p.id === photoId` compares a number with a string.  For the string id both ways agree. -/
theorem viewDetails_numeric_id_no_call :
    ((mount 800 600 (some [exampleReport1, exampleReport2, exampleReport3])).state.markers.getD
        []).map (fun m => (m.click,
          (m.viewDetails
            (mount 800 600 (some [exampleReport1, exampleReport2, exampleReport3])).state
            ).toOption)) =
      [([exampleReport1], some []), ([exampleReport2], some []),
        ([exampleReport3], some [exampleReport3])] := by
  rfl

/-- C5: after the update effect has run on a live marker layer for any report list, every
marker of the layer was created for a report of the list, and firing its click event
calls `onMarkerClick` exactly once, with that report.  The markers stand, in list order,
for the reports before the first one that lacks a numeric coordinate, so for every
report of the list when all have numeric coordinates. -/
theorem marker_click_calls_once (st : MapState) (old : List Marker) (R : List Report)
    (hlive : st.markers = some old) :
    ∃ ms, (updateMarkersEffect (some R) st).state.markers = some ms ∧
      (∀ m ∈ ms, ∃ r ∈ R, m.click = [r]) ∧
      ms.map Marker.click = (R.takeWhile Report.hasPosition).map (fun r => [r]) ∧
      ((∀ r ∈ R, r.hasPosition = true) → ms.map Marker.click = R.map (fun r => [r])) := by
  obtain ⟨ms, hms, hclick⟩ := updateMarkersEffect_clickArgs st old R hlive
  refine ⟨ms, hms, ?_, hclick, ?_⟩
  · intro m hm
    have hmem : m.clickArgs ∈ ms.map (fun m => m.clickArgs) := List.mem_map.mpr ⟨m, hm, rfl⟩
    rw [hclick] at hmem
    obtain ⟨r, hr, hrm⟩ := List.mem_map.mp hmem
    exact ⟨r, (List.takeWhile_prefix Report.hasPosition).subset hr, hrm.symm⟩
  · intro hR
    rw [takeWhile_of_all R hR] at hclick
    exact hclick

/-- C5, witness: the two reports of the example scenario; the click on the first marker
calls back once with the report of id 1, the click on the second with that of id 2. -/
theorem marker_click_calls_once_witness :
    ∃ ms, (updateMarkersEffect (some [exampleReport1, exampleReport2])
        liveState).state.markers = some ms ∧
      ms.map Marker.click = [[exampleReport1], [exampleReport2]] := by
  obtain ⟨ms, hms, _, _, hall⟩ :=
    marker_click_calls_once liveState [] [exampleReport1, exampleReport2] rfl
  exact ⟨ms, hms, hall (by decide)⟩

/-- C6, counterexample: with a report that lacks its latitude between two valid reports
the update effect throws; the valid report after it gets no marker. -/
theorem missing_latitude_aborts_pass :
    (updateMarkersEffect (some [exampleReport1, reportWithoutLatitude, exampleReport2])
        liveState).error = some JsError.invalidLatLng ∧
    (updateMarkersEffect (some [exampleReport1, reportWithoutLatitude, exampleReport2])
        liveState).state.liveIds = [JsId.num 1] := by
  decide

/-- C6, amended: the update effect does not skip a report whose latitude or longitude is
absent, null or NaN.  At the first such report it throws; the layer then holds markers
for exactly the reports before it, so none for the invalid report and none for any report
after it, and no viewport call is made. -/
theorem updateMarkersEffect_throws_at_invalid (st : MapState) (old : List Marker)
    (pre : List Report) (bad : Report) (post : List Report)
    (hlive : st.markers = some old) (hpre : ∀ r ∈ pre, r.hasPosition = true)
    (hbad : bad.hasPosition = false) :
    ∃ e ms, (updateMarkersEffect (some (pre ++ bad :: post)) st).error = some e ∧
      (updateMarkersEffect (some (pre ++ bad :: post)) st).state.markers = some ms ∧
      ms.map (fun m => m.clickArgs) = pre.map (fun r => [r]) ∧
      (updateMarkersEffect (some (pre ++ bad :: post)) st).calls.filter MapCall.isViewport = [] ∧
      (updateMarkersEffect (some (pre ++ bad :: post)) st).state.mapInstance = st.mapInstance := by
  obtain ⟨ms, e, hms, hclick⟩ := addMarkers_of_bad pre bad post st.nextHandle [] hpre hbad
  refine ⟨e, ms, ?_, ?_, hclick, ?_, ?_⟩ <;>
    simp [updateMarkersEffect, hlive, hms, List.filter_map, Function.comp_def,
      MapCall.isViewport]

/-- C6, witness: a report without latitude between the two example reports. -/
theorem updateMarkersEffect_throws_at_invalid_witness :
    ∃ e ms, (updateMarkersEffect (some ([exampleReport1] ++ reportWithoutLatitude ::
        [exampleReport2])) liveState).error = some e ∧
      (updateMarkersEffect (some ([exampleReport1] ++ reportWithoutLatitude ::
        [exampleReport2])) liveState).state.markers = some ms ∧
      ms.map (fun m => m.clickArgs) = [exampleReport1].map (fun r => [r]) ∧
      (updateMarkersEffect (some ([exampleReport1] ++ reportWithoutLatitude ::
        [exampleReport2])) liveState).calls.filter MapCall.isViewport = [] ∧
      (updateMarkersEffect (some ([exampleReport1] ++ reportWithoutLatitude ::
        [exampleReport2])) liveState).state.mapInstance = liveState.mapInstance :=
  updateMarkersEffect_throws_at_invalid liveState [] [exampleReport1] reportWithoutLatitude
    [exampleReport2] rfl (by decide) (by decide)

/-- C7: reconciling the empty report list on a live marker layer, whatever markers it
held, leaves no marker, does not throw, makes no viewport call and leaves the map
(centre and zoom) as it was. -/
theorem updateMarkersEffect_empty (st : MapState) (old : List Marker)
    (hlive : st.markers = some old) :
    (updateMarkersEffect (some []) st).state.markers = some [] ∧
    (updateMarkersEffect (some []) st).error = none ∧
    (updateMarkersEffect (some []) st).calls.filter MapCall.isViewport = [] ∧
    (updateMarkersEffect (some []) st).state.mapInstance = st.mapInstance := by
  unfold updateMarkersEffect
  rw [hlive]
  simp [addMarkers, List.filter_map, Function.comp_def, MapCall.isViewport]

/-- C7, witness: the empty list reconciled on the layer that holds the two markers of the
example scenario (handles 0 and 1).  Both markers are removed, nothing is added, no
marker is left, nothing is thrown, and the map is the one the first run left. -/
theorem updateMarkersEffect_empty_witness :
    (updateMarkersEffect (some [exampleReport1, exampleReport2]) liveState).state.liveHandles =
      [0, 1] ∧
    (updateMarkersEffect (some [])
      (updateMarkersEffect (some [exampleReport1, exampleReport2]) liveState).state).calls =
      [.removeLayer 0, .removeLayer 1] ∧
    (updateMarkersEffect (some [])
      (updateMarkersEffect (some [exampleReport1, exampleReport2])
        liveState).state).state.markers = some [] ∧
    (updateMarkersEffect (some [])
      (updateMarkersEffect (some [exampleReport1, exampleReport2]) liveState).state).error =
      none ∧
    (updateMarkersEffect (some [])
      (updateMarkersEffect (some [exampleReport1, exampleReport2]) liveState).state).calls.filter
        MapCall.isViewport = [] ∧
    (updateMarkersEffect (some [])
      (updateMarkersEffect (some [exampleReport1, exampleReport2])
        liveState).state).state.mapInstance =
      (updateMarkersEffect (some [exampleReport1, exampleReport2])
        liveState).state.mapInstance :=
  ⟨by decide!, by decide!,
    updateMarkersEffect_empty
      (updateMarkersEffect (some [exampleReport1, exampleReport2]) liveState).state
      ((updateMarkersEffect (some [exampleReport1, exampleReport2])
        liveState).state.markers.getD []) (by decide!)⟩

/-- C8: for every member count n the class chosen by `iconCreateFunction` is the small
one exactly when n <= 10, the medium one exactly when 11 <= n <= 50 and the large one
exactly when n > 50, and the label in the icon markup is the decimal text of n. -/
theorem iconCreateFunction_tiers (n : Nat) :
    ((iconCreateFunction n).className = "marker-cluster marker-cluster-small" ↔ n ≤ 10) ∧
    ((iconCreateFunction n).className = "marker-cluster marker-cluster-medium" ↔
      11 ≤ n ∧ n ≤ 50) ∧
    ((iconCreateFunction n).className = "marker-cluster marker-cluster-large" ↔ 50 < n) ∧
    (iconCreateFunction n).html = "<div><span>" ++ toString n ++ "</span></div>" := by
  have hhtml : (iconCreateFunction n).html = "<div><span>" ++ toString n ++ "</span></div>" := rfl
  have key : (n ≤ 10 ∧ (iconCreateFunction n).className = "marker-cluster marker-cluster-small") ∨
      (11 ≤ n ∧ n ≤ 50 ∧
        (iconCreateFunction n).className = "marker-cluster marker-cluster-medium") ∨
      (50 < n ∧ (iconCreateFunction n).className = "marker-cluster marker-cluster-large") := by
    unfold iconCreateFunction clusterClassName
    by_cases h50 : n > 50
    · right
      right
      refine ⟨h50, ?_⟩
      simp only [h50, if_true]
      decide
    · by_cases h10 : n > 10
      · right
        left
        refine ⟨h10, by omega, ?_⟩
        simp only [h50, h10, if_true, if_false]
        decide
      · left
        refine ⟨by omega, ?_⟩
        simp only [h50, h10, if_false]
        decide
  rcases key with ⟨hn, hc⟩ | ⟨hn, hn2, hc⟩ | ⟨hn, hc⟩
  · rw [hc]
    refine ⟨⟨fun _ => hn, fun _ => rfl⟩, ⟨fun h => absurd h (by decide), fun h => by omega⟩,
      ⟨fun h => absurd h (by decide), fun h => by omega⟩, hhtml⟩
  · rw [hc]
    refine ⟨⟨fun h => absurd h (by decide), fun h => by omega⟩, ⟨fun _ => ⟨hn, hn2⟩, fun _ => rfl⟩,
      ⟨fun h => absurd h (by decide), fun h => by omega⟩, hhtml⟩
  · rw [hc]
    refine ⟨⟨fun h => absurd h (by decide), fun h => by omega⟩,
      ⟨fun h => absurd h (by decide), fun h => by omega⟩, ⟨fun _ => hn, fun _ => rfl⟩, hhtml⟩

/-- C9, counterexample: a single report from Mombasa, outside the maximum bounds of the
map, is not in view on the live map; the effect calls `setView` on its position at zoom
15, but Leaflet keeps the centre of the view within the maximum bounds, more than two
degrees away, and the viewport does not contain the position.  (The view is computed with
the idealised map.) -/
theorem single_report_outside_bounds_not_shown :
    ¬ (modelLeaflet.getBounds (LeafletMap.create 800 600)).contains ⟨-81 / 20, 3967 / 100⟩ ∧
    (updateMarkersEffectOn modelLeaflet (some [mombasaReport]) liveState).calls.filter
        MapCall.isViewport = [.setView ⟨-81 / 20, 3967 / 100⟩ 15] ∧
    (updateMarkersEffectOn modelLeaflet (some [mombasaReport]) liveState).state.mapInstance.map
      (fun m => (m.zoom, decide ((modelLeaflet.getBounds m).contains ⟨-81 / 20, 3967 / 100⟩))) =
      some (15, false) := by
  decide!

/-- C9, amended: for a report list of exactly one report at position P on a live map,
whatever the Leaflet methods do, the run completes; if the bounds `getBounds()` returns
do not contain P, the effect makes one viewport call, `setView(P, 15)`, and the map is
what `setView` makes of it; if they contain P, the effect makes no viewport call and the
map, centre and zoom, is exactly as before. -/
theorem single_report_viewport (leaflet : Leaflet) (st : MapState) (old : List Marker)
    (map : LeafletMap) (p : Report) (P : LatLng) (hlive : st.markers = some old)
    (hmap : st.mapInstance = some map) (hP : p.position = some P) :
    (updateMarkersEffectOn leaflet (some [p]) st).error = none ∧
    (¬ (leaflet.getBounds map).contains P →
      (updateMarkersEffectOn leaflet (some [p]) st).calls.filter MapCall.isViewport =
        [.setView P 15] ∧
      (updateMarkersEffectOn leaflet (some [p]) st).state.mapInstance =
        some (leaflet.setView map P 15)) ∧
    ((leaflet.getBounds map).contains P →
      (updateMarkersEffectOn leaflet (some [p]) st).calls.filter MapCall.isViewport = [] ∧
      (updateMarkersEffectOn leaflet (some [p]) st).state.mapInstance = some map) := by
  have hps : ∀ r ∈ [p], r.hasPosition = true := by
    intro r hr
    rw [List.mem_singleton.mp hr]
    exact (position_eq_some p P hP).2.2
  obtain ⟨ms, vc, hvc, _, herr, hcalls, hnew, hpos⟩ :=
    updateMarkersEffectOn_viewport leaflet st old map [p] hlive hmap hps
  have hms : ms ≠ [] := by
    intro h
    rw [h] at hpos
    simp at hpos
  rw [viewportCallOn_single leaflet p P ms map hP hms] at hvc
  refine ⟨herr, ?_, ?_⟩
  · intro hout
    simp only [hout, if_false, Except.ok.injEq] at hvc
    subst hvc
    exact ⟨by simpa using hcalls, by simpa [Leaflet.perform] using hnew⟩
  · intro hin
    simp only [hin, if_true, Except.ok.injEq] at hvc
    subst hvc
    exact ⟨by simpa using hcalls, by simpa using hnew⟩

/-- C9, witness: with the idealised map, a single report at (-1.45, 36.55), which the
initial view of the 800 by 600 map does not show, has `setView` called on its position;
a single report at (-1.30, 36.82), which the initial view shows, leaves the map as it
is. -/
theorem single_report_viewport_witness :
    ((updateMarkersEffectOn modelLeaflet (some [outOfViewReport]) liveState).calls.filter
        MapCall.isViewport = [.setView ⟨-29 / 20, 731 / 20⟩ 15] ∧
      (updateMarkersEffectOn modelLeaflet (some [outOfViewReport]) liveState).state.mapInstance =
        some (modelLeaflet.setView (LeafletMap.create 800 600) ⟨-29 / 20, 731 / 20⟩ 15)) ∧
    ((updateMarkersEffectOn modelLeaflet (some [exampleReport1]) liveState).calls.filter
        MapCall.isViewport = [] ∧
      (updateMarkersEffectOn modelLeaflet (some [exampleReport1]) liveState).state.mapInstance =
        some (LeafletMap.create 800 600)) :=
  ⟨(single_report_viewport modelLeaflet liveState [] (LeafletMap.create 800 600)
      outOfViewReport ⟨-29 / 20, 731 / 20⟩ rfl rfl rfl).2.1 (by decide!),
    (single_report_viewport modelLeaflet liveState [] (LeafletMap.create 800 600)
      exampleReport1 ⟨-13 / 10, 1841 / 50⟩ rfl rfl rfl).2.2 (by decide!)⟩

/-- C10, counterexample: two reports at opposite corners of `NAIROBI_BOUNDS` on a map in a
360 by 640 pixel container.  The effect calls `fitBounds` on the rectangle of the two
positions, which is 0.7 degrees of longitude wide; at the minimum zoom 10 the container
shows less than 0.5 degrees, so the viewport after the call has zoom 10 and contains
neither position.  (The view is computed with the idealised map.) -/
theorem fitBounds_min_zoom_leaves_markers_out :
    (updateMarkersEffectOn modelLeaflet (some [southWestReport, northEastReport])
        phoneState).calls.filter MapCall.isViewport =
      [.fitBounds ⟨⟨-3 / 2, 73 / 2⟩, ⟨-1, 186 / 5⟩⟩ 20 20] ∧
    (updateMarkersEffectOn modelLeaflet (some [southWestReport, northEastReport])
        phoneState).state.mapInstance.map
      (fun m => (m.zoom, decide ((modelLeaflet.getBounds m).contains ⟨-3 / 2, 73 / 2⟩),
        decide ((modelLeaflet.getBounds m).contains ⟨-1, 186 / 5⟩))) =
      some (10, false, false) := by
  decide!

/-- C10, amended: for every list of two or more reports with numeric coordinates on a
live map, whatever the Leaflet methods do, the effect makes one viewport call:
`fitBounds`, with a padding of 20 pixels, on the smallest latitude/longitude rectangle
that contains all marker positions; the map is then what `fitBounds` makes of it.  The
resulting viewport contains every marker position whenever it covers that rectangle. -/
theorem many_reports_fitBounds (leaflet : Leaflet) (st : MapState) (old : List Marker)
    (map : LeafletMap) (R : List Report) (hlive : st.markers = some old)
    (hmap : st.mapInstance = some map) (hR : ∀ r ∈ R, r.hasPosition = true)
    (hlen : 2 ≤ R.length) :
    ∃ b, (updateMarkersEffectOn leaflet (some R) st).calls.filter MapCall.isViewport =
        [.fitBounds b 20 20] ∧
      (updateMarkersEffectOn leaflet (some R) st).state.mapInstance =
        some (leaflet.fitBounds map b 20 20) ∧
      (∀ r ∈ R, ∀ p, r.position = some p → b.contains p) ∧
      (∀ b' : LatLngBounds, (∀ r ∈ R, ∀ p, r.position = some p → b'.contains p) →
        b'.includes b) ∧
      ((leaflet.getBounds (leaflet.fitBounds map b 20 20)).includes b →
        ∀ r ∈ R, ∀ p, r.position = some p →
          (leaflet.getBounds (leaflet.fitBounds map b 20 20)).contains p) := by
  obtain ⟨ms, vc, hvc, _, _, hcalls, hnew, hpos⟩ :=
    updateMarkersEffectOn_viewport leaflet st old map R hlive hmap hR
  obtain ⟨hRm, hmR⟩ := mem_markers_of_position ms R hpos
  match R, hlen with
  | p :: q :: rest, _ =>
    have hms : ms ≠ [] := by
      intro h
      rw [h] at hpos
      simp at hpos
    obtain ⟨b, hb, hcall⟩ := viewportCallOn_many leaflet p q rest ms map hms
    rw [hcall] at hvc
    simp only [Except.ok.injEq] at hvc
    subst hvc
    obtain ⟨hcont, hleast⟩ := markerBounds_least ms b hb
    have hall : ∀ r ∈ p :: q :: rest, ∀ pt, r.position = some pt → b.contains pt := by
      intro r hr pt hpt
      obtain ⟨x, hx, hxp⟩ := hRm r hr pt hpt
      rw [← hxp]
      exact hcont x hx
    have hmin : ∀ b' : LatLngBounds,
        (∀ r ∈ p :: q :: rest, ∀ pt, r.position = some pt → b'.contains pt) →
        b'.includes b := by
      intro b' hb'
      apply hleast b'
      intro x hx
      obtain ⟨r, hr, hrp⟩ := hmR x hx
      exact hb' r hr x.latlng hrp
    refine ⟨b, by simpa using hcalls, by simpa [Leaflet.perform] using hnew, hall, hmin, ?_⟩
    intro hview r hr pt hpt
    exact includes_contains _ _ _ hview (hall r hr pt hpt)

/-- C10, witness: the two reports of the example scenario in the 800 by 600 container.
The rectangle from (-1.30, 36.78) to (-1.29, 36.82) is handed to `fitBounds`; the view
the idealised map makes of it covers the rectangle, so it contains both positions. -/
theorem many_reports_fitBounds_witness :
    (updateMarkersEffectOn modelLeaflet (some [exampleReport1, exampleReport2])
        liveState).calls.filter MapCall.isViewport =
      [.fitBounds ⟨⟨-13 / 10, 1839 / 50⟩, ⟨-129 / 100, 1841 / 50⟩⟩ 20 20] ∧
    ∀ r ∈ [exampleReport1, exampleReport2], ∀ p, r.position = some p →
      (modelLeaflet.getBounds (modelLeaflet.fitBounds (LeafletMap.create 800 600)
        ⟨⟨-13 / 10, 1839 / 50⟩, ⟨-129 / 100, 1841 / 50⟩⟩ 20 20)).contains p := by
  obtain ⟨b, hcall, _, _, _, hview⟩ := many_reports_fitBounds modelLeaflet liveState []
    (LeafletMap.create 800 600) [exampleReport1, exampleReport2] rfl rfl (by decide) (by decide)
  have hconcrete : (updateMarkersEffectOn modelLeaflet (some [exampleReport1, exampleReport2])
      liveState).calls.filter MapCall.isViewport =
      [.fitBounds ⟨⟨-13 / 10, 1839 / 50⟩, ⟨-129 / 100, 1841 / 50⟩⟩ 20 20] := by
    decide!
  have hb : b = ⟨⟨-13 / 10, 1839 / 50⟩, ⟨-129 / 100, 1841 / 50⟩⟩ := by
    rw [hconcrete] at hcall
    simp only [List.cons.injEq, MapCall.fitBounds.injEq, and_true] at hcall
    exact hcall.symm
  subst hb
  exact ⟨hconcrete, hview (by decide!)⟩

/-! ## Lemmas on the lifecycle -/

theorem initMapEffect_of_live (st : MapState) (map : LeafletMap)
    (hlive : st.mapInstance = some map) : initMapEffect st = st := by
  unfold initMapEffect
  rw [hlive]
  split
  · rename_i hnone
    cases hnone
  · rfl

theorem initMapEffect_twice (st : MapState) : initMapEffect (initMapEffect st) = initMapEffect st := by
  cases hm : st.mapInstance with
  | some map => rw [initMapEffect_of_live st map hm, initMapEffect_of_live st map hm]
  | none =>
    cases hc : st.container with
    | none => simp [initMapEffect, hc, hm]
    | some size =>
      obtain ⟨w, h⟩ := size
      exact initMapEffect_of_live _ (LeafletMap.create w h) (by simp [initMapEffect, hc, hm])

theorem iterate_initMapEffect_succ (st : MapState) (n : Nat) :
    Nat.iterate initMapEffect (n + 1) st = initMapEffect st := by
  induction n with
  | zero => rfl
  | succ k ih =>
    rw [Function.iterate_succ_apply', ih, initMapEffect_twice]

theorem iterate_initMapEffect_of_live (st : MapState) (map : LeafletMap) (n : Nat)
    (hlive : st.mapInstance = some map) : Nat.iterate initMapEffect n st = st := by
  cases n with
  | zero => rfl
  | succ k => rw [iterate_initMapEffect_succ, initMapEffect_of_live st map hlive]

/-- The handler resolves its argument against the list it closes over: what it delivers
is a report of that list with that id, and nothing when no report has the id. -/
theorem handlePhotoClick_resolves (R : List Report) (photoId : JsId) :
    ∃ calls, handlePhotoClick (some R) photoId = .ok calls ∧
      (∀ r ∈ calls, r ∈ R ∧ r.id = photoId) ∧
      ((∀ r ∈ R, r.id ≠ photoId) → calls = []) := by
  cases hf : R.find? (fun p => p.id.strictEq photoId) with
  | none => exact ⟨[], by simp only [handlePhotoClick, hf], by simp, fun _ => rfl⟩
  | some photo =>
    have hmem := List.mem_of_find?_eq_some hf
    have hp := List.find?_some hf
    simp only [JsId.strictEq, decide_eq_true_eq] at hp
    refine ⟨[photo], by simp only [handlePhotoClick, hf], ?_, ?_⟩
    · intro r hr
      rw [List.mem_singleton.mp hr]
      exact ⟨hmem, hp⟩
    · intro hno
      exact absurd hp (hno photo hmem)

/-- A commit keeps the marker layer and the map live, also when its update effect throws. -/
theorem rerender_live (st : MapState) (old : List Marker) (map : LeafletMap)
    (ps : List Report) (hlive : st.markers = some old) (hmap : st.mapInstance = some map) :
    (∃ ms, (rerender (some ps) st).state.markers = some ms) ∧
      ∃ map1, (rerender (some ps) st).state.mapInstance = some map1 := by
  obtain ⟨hm, _, hi⟩ := updateMarkersEffect_markers (dispatchCleanup st) old ps hlive
  have hmap1 : (dispatchCleanup st).mapInstance = some map := hmap
  rw [hmap1] at hi
  obtain ⟨m1, hm1⟩ := Option.isSome_iff_exists.mp hi
  unfold rerender
  simp only
  split
  · exact ⟨⟨_, hm⟩, ⟨m1, hm1⟩⟩
  · exact ⟨⟨_, hm⟩, ⟨m1, hm1⟩⟩

/-- A commit with reports that all have a position completes and leaves the handler
closed over the new list. -/
theorem rerender_handler (st : MapState) (old : List Marker) (map : LeafletMap)
    (ps : List Report) (hlive : st.markers = some old) (hmap : st.mapInstance = some map)
    (hps : ∀ r ∈ ps, r.hasPosition = true) :
    (rerender (some ps) st).error = none ∧
      (rerender (some ps) st).state.handlePhotoClick = some (some ps) := by
  obtain ⟨ms, vc, _, heq, _⟩ :=
    updateMarkersEffect_of_hasPosition (dispatchCleanup st) old map ps hlive hmap hps
  unfold rerender
  simp [heq, dispatchEffect]

/-- The handler delivers the first report of its list with the id it is called with,
once; every report of the list has its id resolved to a report with that id, and a
report whose id no other report shares is delivered itself. -/
theorem handlePhotoClick_found (R : List Report) :
    (∀ photoId : JsId, (∃ r ∈ R, r.id = photoId) →
      ∃ r ∈ R, r.id = photoId ∧ handlePhotoClick (some R) photoId = .ok [r]) ∧
    ∀ r ∈ R, (∀ q ∈ R, q.id = r.id → q = r) → handlePhotoClick (some R) r.id = .ok [r] := by
  have key : ∀ photoId : JsId, (∃ r ∈ R, r.id = photoId) →
      ∃ r ∈ R, r.id = photoId ∧ handlePhotoClick (some R) photoId = .ok [r] := by
    intro photoId hex
    cases hf : R.find? (fun p => p.id.strictEq photoId) with
    | none =>
      obtain ⟨r, hr, hri⟩ := hex
      have := List.find?_eq_none.mp hf r hr
      simp [JsId.strictEq, hri] at this
    | some photo =>
      have hmem := List.mem_of_find?_eq_some hf
      have hp := List.find?_some hf
      simp only [JsId.strictEq, decide_eq_true_eq] at hp
      exact ⟨photo, hmem, hp, by simp only [handlePhotoClick, hf]⟩
  refine ⟨key, ?_⟩
  intro r hr huniq
  obtain ⟨q, hq, hqi, hcall⟩ := key r.id ⟨r, hr, rfl⟩
  rw [hcall, huniq q hq hqi]

/-- A commit either completes, and then the handler is the closure over the new list, or
its update effect throws, and then no handler is installed. -/
theorem rerender_handlePhotoClick (photos : List Report) (st : MapState) :
    ((rerender (some photos) st).error = none →
      (rerender (some photos) st).state.handlePhotoClick = some (some photos)) ∧
    ((rerender (some photos) st).error ≠ none →
      (rerender (some photos) st).state.handlePhotoClick = none) := by
  have hkeep : ∀ s : MapState,
      (updateMarkersEffect (some photos) s).state.handlePhotoClick = s.handlePhotoClick := by
    intro s
    unfold updateMarkersEffect
    split
    · simp only
      split
      · rfl
      · split
        · rfl
        · split
          · rfl
          · split <;> rfl
    · rfl
  have herr : ∀ s : MapState, (rerender (some photos) s).error =
      (updateMarkersEffect (some photos) (dispatchCleanup s)).error := by
    intro s
    unfold rerender
    simp only
    split
    · rename_i h
      simp [h]
    · rfl
  constructor
  · intro h
    rw [herr] at h
    unfold rerender
    simp only [h, dispatchEffect]
  · intro h
    rw [herr] at h
    unfold rerender
    simp only
    split
    · rename_i h'
      exact absurd h' h
    · rw [hkeep]
      rfl

/-! ## The claims on lifecycle, render and dispatch -/

/-- C11: when no marker is live after a run of the update effect, the run made no
viewport call (neither `fitBounds` nor `setView`) and the map, centre and zoom, is as it
was before. -/
theorem no_markers_no_viewport_call (photos : Option (List Report)) (st : MapState)
    (hzero : (updateMarkersEffect photos st).state.markers.getD [] = []) :
    (updateMarkersEffect photos st).calls.filter MapCall.isViewport = [] ∧
    (updateMarkersEffect photos st).state.mapInstance = st.mapInstance := by
  cases hmk : st.markers with
  | none => simp [updateMarkersEffect, hmk]
  | some old =>
    cases photos with
    | none => simp [updateMarkersEffect, hmk]
    | some ps =>
      obtain ⟨hm, _, _⟩ := updateMarkersEffect_markers st old ps hmk
      rw [hm, Option.getD_some] at hzero
      unfold updateMarkersEffect
      rw [hmk]
      simp only [hzero]
      split <;> simp [List.filter_map, Function.comp_def, MapCall.isViewport]

/-- C11, witness: the empty list reconciled after the two example reports. -/
theorem no_markers_no_viewport_call_witness :
    (updateMarkersEffect (some [])
      (updateMarkersEffect (some [exampleReport1, exampleReport2]) liveState).state).calls.filter
        MapCall.isViewport = [] ∧
    (updateMarkersEffect (some [])
      (updateMarkersEffect (some [exampleReport1, exampleReport2])
        liveState).state).state.mapInstance =
      (updateMarkersEffect (some [exampleReport1, exampleReport2])
        liveState).state.mapInstance :=
  no_markers_no_viewport_call (some [])
    (updateMarkersEffect (some [exampleReport1, exampleReport2]) liveState).state rfl

/-- C12: the initialise step on a state that holds a live map is a no-op: the whole
state, so the map handle, the marker layer and the count of maps created, is unchanged,
however often the step is repeated; and any number of initialise steps after a render
gives the state of one step, with exactly one map created. -/
theorem initMapEffect_idempotent (st : MapState) (map : LeafletMap) (width height n : Nat)
    (hlive : st.mapInstance = some map) :
    initMapEffect st = st ∧
    Nat.iterate initMapEffect n st = st ∧
    Nat.iterate initMapEffect (n + 1) (MapState.rendered width height) =
      initMapEffect (MapState.rendered width height) ∧
    (Nat.iterate initMapEffect (n + 1) (MapState.rendered width height)).mapsCreated = 1 ∧
    (Nat.iterate initMapEffect (n + 1) (MapState.rendered width height)).mapInstance =
      some (LeafletMap.create width height) ∧
    (Nat.iterate initMapEffect (n + 1) (MapState.rendered width height)).markers = some [] := by
  refine ⟨initMapEffect_of_live st map hlive, iterate_initMapEffect_of_live st map n hlive,
    iterate_initMapEffect_succ _ n, ?_, ?_, ?_⟩ <;>
  · rw [iterate_initMapEffect_succ]
    rfl

/-- C12, witness: the live map of the 800 by 600 container, three more initialise steps. -/
theorem initMapEffect_idempotent_witness :
    initMapEffect liveState = liveState ∧
    Nat.iterate initMapEffect 3 liveState = liveState ∧
    Nat.iterate initMapEffect (3 + 1) (MapState.rendered 800 600) =
      initMapEffect (MapState.rendered 800 600) ∧
    (Nat.iterate initMapEffect (3 + 1) (MapState.rendered 800 600)).mapsCreated = 1 ∧
    (Nat.iterate initMapEffect (3 + 1) (MapState.rendered 800 600)).mapInstance =
      some (LeafletMap.create 800 600) ∧
    (Nat.iterate initMapEffect (3 + 1) (MapState.rendered 800 600)).markers = some [] :=
  initMapEffect_idempotent liveState (LeafletMap.create 800 600) 800 600 3 rfl

/-- C13: unmounting a component with a live map leaves no map handle, no marker layer
and no `window.handlePhotoClick`; the map is removed once, and a second teardown removes
nothing more.  Afterwards the View Details control of any marker reaches no handler (the
call is a TypeError, `onMarkerClick` is not called) and no marker can be clicked. -/
theorem unmount_releases (st : MapState) (map : LeafletMap)
    (hlive : st.mapInstance = some map) :
    (unmount st).mapInstance = none ∧
    (unmount st).markers = none ∧
    (unmount st).handlePhotoClick = none ∧
    (unmount st).mapsRemoved = st.mapsRemoved + 1 ∧
    unmount (unmount st) = unmount st ∧
    (∀ m : Marker, m.viewDetails (unmount st) = .error .typeError) ∧
    (∀ photoId : JsId, (unmount st).callHandlePhotoClick photoId = .error .typeError) ∧
    ∀ handle : Nat, (unmount st).clickMarker handle = [] := by
  simp [unmount, initMapCleanup, dispatchCleanup, hlive, Marker.viewDetails,
    MapState.callHandlePhotoClick, MapState.clickMarker]

/-- C13, witness: the component mounted with the two example reports. -/
theorem unmount_releases_witness :
    (unmount (mount 800 600 (some [exampleReport1, exampleReport2])).state).mapInstance = none ∧
    (unmount (mount 800 600 (some [exampleReport1, exampleReport2])).state).markers = none ∧
    (unmount (mount 800 600 (some [exampleReport1, exampleReport2])).state).handlePhotoClick =
      none ∧
    (unmount (mount 800 600 (some [exampleReport1, exampleReport2])).state).mapsRemoved =
      (mount 800 600 (some [exampleReport1, exampleReport2])).state.mapsRemoved + 1 ∧
    unmount (unmount (mount 800 600 (some [exampleReport1, exampleReport2])).state) =
      unmount (mount 800 600 (some [exampleReport1, exampleReport2])).state ∧
    (∀ m : Marker, m.viewDetails
      (unmount (mount 800 600 (some [exampleReport1, exampleReport2])).state) =
        .error .typeError) ∧
    (∀ photoId : JsId,
      (unmount (mount 800 600
        (some [exampleReport1, exampleReport2])).state).callHandlePhotoClick photoId =
        .error .typeError) ∧
    ∀ handle : Nat,
      (unmount (mount 800 600 (some [exampleReport1, exampleReport2])).state).clickMarker
        handle = [] :=
  unmount_releases (mount 800 600 (some [exampleReport1, exampleReport2])).state
    ((LeafletMap.create 800 600).fitBounds
      ⟨⟨-13 / 10, 1839 / 50⟩, ⟨-129 / 100, 1841 / 50⟩⟩ 20 20) (by decide!)

/-- C14: with no live marker layer, as before the initialise step and after teardown, the
update effect returns at its guard: for every `photos` the state is unchanged, no call is
made on a layer or on the map, and nothing is thrown. -/
theorem updateMarkersEffect_without_layer (photos : Option (List Report)) (st : MapState)
    (width height : Nat) (hnone : st.markers = none) :
    updateMarkersEffect photos st = ⟨st, [], none⟩ ∧
    updateMarkersEffect photos (MapState.rendered width height) =
      ⟨MapState.rendered width height, [], none⟩ ∧
    updateMarkersEffect photos (unmount st) = ⟨unmount st, [], none⟩ ∧
    ∀ live : MapState, live.mapInstance.isSome = true →
      updateMarkersEffect photos (unmount live) = ⟨unmount live, [], none⟩ := by
  refine ⟨?_, ?_, ?_, ?_⟩
  · simp [updateMarkersEffect, hnone]
  · simp [updateMarkersEffect, MapState.rendered]
  · cases hm : st.mapInstance <;>
      simp [updateMarkersEffect, unmount, initMapCleanup, dispatchCleanup, hnone, hm]
  · intro live hl
    obtain ⟨m, hm⟩ := Option.isSome_iff_exists.mp hl
    simp [updateMarkersEffect, unmount, initMapCleanup, dispatchCleanup, hm]

/-- C14, witness: the two example reports handed to a component that was rendered but
not initialised, and to one that was unmounted. -/
theorem updateMarkersEffect_without_layer_witness :
    updateMarkersEffect (some [exampleReport1, exampleReport2]) (MapState.rendered 800 600) =
      ⟨MapState.rendered 800 600, [], none⟩ ∧
    updateMarkersEffect (some [exampleReport1, exampleReport2]) (unmount liveState) =
      ⟨unmount liveState, [], none⟩ :=
  have h := updateMarkersEffect_without_layer (some [exampleReport1, exampleReport2])
    (MapState.rendered 800 600) 800 600 rfl
  ⟨h.1, h.2.2.2 liveState rfl⟩

/-- C15: for every report list and every value of `isLoading` the component renders; the
loading indicator is shown exactly when `isLoading` is true, the empty-state message
exactly when `isLoading` is false and the list is empty, and never both. -/
theorem render_loading_excludes_empty (R : List Report) (isLoading : Bool) :
    ∃ view, render (some R) isLoading = .ok view ∧
      (view.loadingIndicator = true ↔ isLoading = true) ∧
      (isLoading = true → view.emptyMessage = false) ∧
      ¬ (view.loadingIndicator = true ∧ view.emptyMessage = true) ∧
      (view.emptyMessage = true ↔ isLoading = false ∧ R = []) := by
  cases isLoading with
  | true => exact ⟨_, rfl, by simp, by simp, by simp, by simp⟩
  | false =>
    refine ⟨_, rfl, by simp, by simp, by simp, ?_⟩
    simp [List.length_eq_zero]

/-- C16: after the report list changed from R1 to R2 (two commits in sequence on a live
map) the popup dispatch resolves ids against R2 only.  When the second commit completes,
as it does when every report of R2 has numeric coordinates, the handler is the closure
over R2: a call with the id of a report of R2 invokes the callback once with a report of
R2 that has this id (the report itself when no other shares its id), a call with an id
that no report of R2 has, such as an id that was only in R1, invokes no callback, and the
View Details control of any marker, also one built for R1, is such a call with the text
of its id.  When the second commit throws, the handler of R1 has been deleted and none is
installed.  In no case is a report delivered that is not in R2. -/
theorem rerender_replaces_dispatch (st : MapState) (old : List Marker) (map : LeafletMap)
    (R1 R2 : List Report) (hlive : st.markers = some old) (hmap : st.mapInstance = some map) :
    ((∀ r ∈ R2, r.hasPosition = true) →
      (rerender (some R2) (rerender (some R1) st).state).error = none) ∧
    ((rerender (some R2) (rerender (some R1) st).state).error = none →
      (rerender (some R2) (rerender (some R1) st).state).state.handlePhotoClick =
        some (some R2) ∧
      (∀ photoId : JsId, (∃ r ∈ R2, r.id = photoId) → ∃ r ∈ R2, r.id = photoId ∧
        (rerender (some R2) (rerender (some R1) st).state).state.callHandlePhotoClick photoId =
          .ok [r]) ∧
      (∀ r ∈ R2, (∀ q ∈ R2, q.id = r.id → q = r) →
        (rerender (some R2) (rerender (some R1) st).state).state.callHandlePhotoClick r.id =
          .ok [r]) ∧
      (∀ photoId : JsId, (∀ r ∈ R2, r.id ≠ photoId) →
        (rerender (some R2) (rerender (some R1) st).state).state.callHandlePhotoClick photoId =
          .ok []) ∧
      ∀ m : Marker,
        m.viewDetails (rerender (some R2) (rerender (some R1) st).state).state =
          (rerender (some R2) (rerender (some R1) st).state).state.callHandlePhotoClick
            (.str m.popup.viewArg)) ∧
    ((rerender (some R2) (rerender (some R1) st).state).error ≠ none →
      (rerender (some R2) (rerender (some R1) st).state).state.handlePhotoClick = none ∧
      ∀ photoId : JsId,
        (rerender (some R2) (rerender (some R1) st).state).state.callHandlePhotoClick photoId =
          .error .typeError) ∧
    (∀ (photoId : JsId) (calls : List Report),
      (rerender (some R2) (rerender (some R1) st).state).state.callHandlePhotoClick photoId =
        .ok calls → ∀ r ∈ calls, r ∈ R2 ∧ r.id = photoId) ∧
    ∀ (m : Marker) (calls : List Report),
      m.viewDetails (rerender (some R2) (rerender (some R1) st).state).state = .ok calls →
        ∀ r ∈ calls, r ∈ R2 ∧ r.id = .str m.popup.viewArg := by
  obtain ⟨⟨ms1, hms1⟩, ⟨map1, hmap1⟩⟩ := rerender_live st old map R1 hlive hmap
  obtain ⟨hdone, hthrown⟩ := rerender_handlePhotoClick R2 (rerender (some R1) st).state
  have hsafe : ∀ (photoId : JsId) (calls : List Report),
      (rerender (some R2) (rerender (some R1) st).state).state.callHandlePhotoClick photoId =
        .ok calls → ∀ r ∈ calls, r ∈ R2 ∧ r.id = photoId := by
    intro photoId calls hcall
    cases herr : (rerender (some R2) (rerender (some R1) st).state).error with
    | none =>
      simp only [MapState.callHandlePhotoClick, hdone herr] at hcall
      obtain ⟨calls', hc', hin, _⟩ := handlePhotoClick_resolves R2 photoId
      rw [hc'] at hcall
      cases hcall
      exact hin
    | some e =>
      have hne : (rerender (some R2) (rerender (some R1) st).state).error ≠ none := by
        rw [herr]
        simp
      simp [MapState.callHandlePhotoClick, hthrown hne] at hcall
  have hview : ∀ m : Marker,
      m.viewDetails (rerender (some R2) (rerender (some R1) st).state).state =
        (rerender (some R2) (rerender (some R1) st).state).state.callHandlePhotoClick
          (.str m.popup.viewArg) := fun m => rfl
  refine ⟨?_, ?_, ?_, hsafe, ?_⟩
  · intro hR2
    exact (rerender_handler _ ms1 map1 R2 hms1 hmap1 hR2).1
  · intro herr
    have hh := hdone herr
    obtain ⟨hfound, huniq⟩ := handlePhotoClick_found R2
    refine ⟨hh, ?_, ?_, ?_, hview⟩
    · intro photoId hex
      simp only [MapState.callHandlePhotoClick, hh]
      exact hfound photoId hex
    · intro r hr hu
      simp only [MapState.callHandlePhotoClick, hh]
      exact huniq r hr hu
    · intro photoId hno
      simp only [MapState.callHandlePhotoClick, hh]
      obtain ⟨calls, hc, _, hnone⟩ := handlePhotoClick_resolves R2 photoId
      rw [hc, hnone hno]
  · intro herr
    refine ⟨hthrown herr, ?_⟩
    intro photoId
    simp only [MapState.callHandlePhotoClick, hthrown herr]
  · intro m calls hcall
    rw [hview m] at hcall
    exact hsafe _ calls hcall

/-- C16, witness: the list of the report with id 1 and the report with the string id is
replaced by the list of the string-id report and the report with id 2.  Afterwards the
string id and the id 2 are resolved to their reports of the new list, the id 1 of the old
list to nothing, and among the markers built for the old list the View Details control
delivers the string-id report of the new list and nothing for the marker of id 1. -/
theorem rerender_replaces_dispatch_witness :
    (rerender (some [exampleReport3, exampleReport2])
      (rerender (some [exampleReport1, exampleReport3]) liveState).state).state.callHandlePhotoClick
        (.str "a1b2") = .ok [exampleReport3] ∧
    (rerender (some [exampleReport3, exampleReport2])
      (rerender (some [exampleReport1, exampleReport3]) liveState).state).state.callHandlePhotoClick
        (.num 2) = .ok [exampleReport2] ∧
    (rerender (some [exampleReport3, exampleReport2])
      (rerender (some [exampleReport1, exampleReport3]) liveState).state).state.callHandlePhotoClick
        (.num 1) = .ok [] ∧
    ∀ m ∈ (rerender (some [exampleReport1, exampleReport3]) liveState).state.markers.getD [],
      m.viewDetails (rerender (some [exampleReport3, exampleReport2])
        (rerender (some [exampleReport1, exampleReport3]) liveState).state).state =
        .ok (if m.popup.viewArg = "a1b2" then [exampleReport3] else []) := by
  obtain ⟨h1, h2, _⟩ := rerender_replaces_dispatch liveState [] (LeafletMap.create 800 600)
    [exampleReport1, exampleReport3] [exampleReport3, exampleReport2] rfl rfl
  obtain ⟨_, _, huniq, hstale, hview⟩ := h2 (h1 (by decide))
  have h3 := huniq exampleReport3 (by simp) (by decide!)
  have h4 := huniq exampleReport2 (by simp) (by decide!)
  have h5 := hstale (.num 1) (by decide)
  refine ⟨h3, h4, h5, ?_⟩
  intro m hm
  have hmarkers : ((rerender (some [exampleReport1, exampleReport3])
      liveState).state.markers.getD []).map (fun m => m.popup.viewArg) = ["1", "a1b2"] := by
    decide!
  have hmem : m.popup.viewArg ∈ ["1", "a1b2"] := by
    rw [← hmarkers]
    exact List.mem_map.mpr ⟨m, hm, rfl⟩
  rw [hview m]
  simp only [List.mem_cons, List.mem_singleton, List.not_mem_nil, or_false] at hmem
  rcases hmem with h | h
  · rw [h]
    exact hstale (.str "1") (by decide)
  · rw [h]
    exact h3

/-! ## Lemmas on the upload form and the filter -/

/-- The test of one coordinate field in `validateForm` stores no error exactly when the
text parses to a finite number within the range. -/
theorem coordinateCheck_none_iff (text : String) (range : Range) (invalid outside : String) :
    (if (text = "" || (parseFloat text).isNaN) = true then some invalid
      else if ((parseFloat text).ltNum range.min || (parseFloat text).gtNum range.max) = true
        then some outside
      else none) = none ↔
    ∃ x, parseFloat text = .fin x ∧ range.min ≤ x ∧ x ≤ range.max := by
  by_cases hempty : text = ""
  · subst hempty
    have hnan : parseFloat "" = .nan := by decide
    simp [hnan]
  · cases hp : parseFloat text with
    | nan => simp [hempty, JsNumber.isNaN]
    | posInf => simp [hempty, JsNumber.isNaN, JsNumber.ltNum, JsNumber.gtNum]
    | negInf => simp [hempty, JsNumber.isNaN, JsNumber.ltNum, JsNumber.gtNum]
    | fin v =>
      simp only [hempty, JsNumber.isNaN, JsNumber.ltNum, JsNumber.gtNum, decide_False,
        Bool.or_self, Bool.false_eq_true, if_false, Bool.or_eq_true, decide_eq_true_eq,
        JsNumber.fin.injEq, exists_eq_left']
      constructor
      · intro h
        split at h
        · cases h
        · rename_i hno
          push_neg at hno
          exact ⟨hno.1, hno.2⟩
      · intro h
        rw [if_neg]
        push_neg
        exact ⟨h.1, h.2⟩

theorem formErrors_keys_empty_iff (e : FormErrors) :
    (e.keys.length == 0) = true ↔
      e.image = none ∧ e.description = none ∧ e.latitude = none ∧ e.longitude = none := by
  obtain ⟨i, d, la, lo⟩ := e
  cases i <;> cases d <;> cases la <;> cases lo <;> simp [FormErrors.keys]

theorem descriptionCheck_none_iff (text : String) (missing short : String) :
    (if jsTrim text = "" then some missing
      else if jsLength (jsTrim text) < 10 then some short
      else none) = none ↔ 10 ≤ jsLength (jsTrim text) := by
  by_cases hempty : jsTrim text = ""
  · rw [hempty]
    have hzero : jsLength "" = 0 := by decide
    simp [hzero]
  · by_cases hshort : jsLength (jsTrim text) < 10
    · simp [hempty, hshort]
    · simp [hempty, hshort]
      omega

/-- The value `validateForm` returns, and the entries of the errors object it stores,
field by field. -/
theorem validateForm_spec (fd : FormData) :
    ((UploadForm.validateForm fd).1.image = none ↔ fd.image.isSome = true) ∧
    ((UploadForm.validateForm fd).1.description = none ↔ 10 ≤ jsLength (jsTrim fd.description)) ∧
    ((UploadForm.validateForm fd).1.latitude = none ↔
      ∃ x, parseFloat fd.latitude = .fin x ∧ UploadForm.NAIROBI_BOUNDS.lat.min ≤ x ∧
        x ≤ UploadForm.NAIROBI_BOUNDS.lat.max) ∧
    ((UploadForm.validateForm fd).1.longitude = none ↔
      ∃ y, parseFloat fd.longitude = .fin y ∧ UploadForm.NAIROBI_BOUNDS.lng.min ≤ y ∧
        y ≤ UploadForm.NAIROBI_BOUNDS.lng.max) ∧
    ((UploadForm.validateForm fd).2 = true ↔
      (UploadForm.validateForm fd).1.image = none ∧
      (UploadForm.validateForm fd).1.description = none ∧
      (UploadForm.validateForm fd).1.latitude = none ∧
      (UploadForm.validateForm fd).1.longitude = none) := by
  refine ⟨?_, ?_, ?_, ?_, ?_⟩
  · simp only [UploadForm.validateForm]
    cases fd.image <;> simp
  · simp only [UploadForm.validateForm]
    exact descriptionCheck_none_iff _ _ _
  · simp only [UploadForm.validateForm]
    exact coordinateCheck_none_iff _ _ _ _
  · simp only [UploadForm.validateForm]
    exact coordinateCheck_none_iff _ _ _ _
  · simp only [UploadForm.validateForm]
    exact formErrors_keys_empty_iff _

theorem toNat_ofNat_of_lt (m : Nat) (h : m < 55296) : (Char.ofNat m).toNat = m := by
  have hv : m.isValidChar := Or.inl h
  simp [Char.ofNat, hv, Char.ofNatAux, Char.toNat]
  rfl

theorem char_eq_of_toNat_eq (c d : Char) (h : c.toNat = d.toNat) : c = d := by
  rw [← Char.ofNat_toNat c, ← Char.ofNat_toNat d, h]

theorem lowerCode_lt (n : Nat) (h : n < 256) : lowerCode n < 256 := by
  unfold lowerCode
  split_ifs <;> omega

theorem upperCode_lt (n : Nat) (h : n < 256) : upperCode n < 256 := by
  unfold upperCode
  split_ifs <;> omega

theorem lowerCode_lowerCode (n : Nat) : lowerCode (lowerCode n) = lowerCode n := by
  unfold lowerCode
  split_ifs <;> omega

theorem lowerCode_upperCode (n : Nat) : lowerCode (upperCode n) = lowerCode n := by
  unfold lowerCode upperCode
  split_ifs <;> omega

/-- Two code points with the same lower-case form: one is the upper-case or the
lower-case form of the other. -/
theorem eq_recase_of_lowerCode_eq (n m : Nat) (h : lowerCode n = lowerCode m) :
    m = upperCode n ∨ m = lowerCode n := by
  unfold lowerCode at h
  unfold lowerCode upperCode
  split_ifs at h ⊢ <;> omega

theorem lowerCaseChar_of_lt (c : Char) (h : c.toNat < 256) :
    lowerCaseChar c = some (lowerLatin1 c) := by
  simp [lowerCaseChar, h]

theorem toNat_recaseChar (upper : Bool) (c : Char) (h : c.toNat < 256) :
    (recaseChar upper c).toNat = if upper then upperCode c.toNat else lowerCode c.toNat := by
  cases upper with
  | false =>
    simp only [recaseChar, lowerCaseChar_of_lt c h, Option.getD_some, Bool.false_eq_true,
      if_false, lowerLatin1]
    exact toNat_ofNat_of_lt _ (by have := lowerCode_lt _ h; omega)
  | true =>
    simp only [recaseChar, if_true, upperCaseChar]
    by_cases h1 : 256 ≤ c.toNat ∨ c.toNat = 181 ∨ c.toNat = 255
    · rw [if_pos h1]
      simp only [upperCode]
      split_ifs <;> omega
    · rw [if_neg h1]
      by_cases h2 : c.toNat = 223
      · rw [if_pos h2]
        simp only [upperCode]
        split_ifs <;> omega
      · rw [if_neg h2]
        exact toNat_ofNat_of_lt _ (by have := upperCode_lt _ h; omega)

theorem recaseChar_of_ge (upper : Bool) (c : Char) (h : 256 ≤ c.toNat) :
    recaseChar upper c = c := by
  have hl : lowerCaseChar c = none := by
    simp [lowerCaseChar]
    omega
  have hu : upperCaseChar c = none := by
    simp [upperCaseChar, h]
  cases upper <;> simp [recaseChar, hl, hu]

theorem toNat_recaseChar_lt (upper : Bool) (c : Char) (h : c.toNat < 256) :
    (recaseChar upper c).toNat < 256 := by
  rw [toNat_recaseChar upper c h]
  cases upper
  · simpa using lowerCode_lt _ h
  · simpa using upperCode_lt _ h

/-- A change of letter case does not change the lower-case form of a code point. -/
theorem lowerCaseChar_recaseChar (upper : Bool) (c : Char) (h : c.toNat < 256) :
    lowerCaseChar (recaseChar upper c) = lowerCaseChar c := by
  rw [lowerCaseChar_of_lt _ (toNat_recaseChar_lt upper c h), lowerCaseChar_of_lt c h,
    lowerLatin1, lowerLatin1, toNat_recaseChar upper c h]
  cases upper
  · simp [lowerCode_lowerCode]
  · simp [lowerCode_upperCode]

/-- Code points with the same lower-case form differ by a change of letter case. -/
theorem exists_recaseChar_eq (c d : Char) (hc : c.toNat < 256) (hd : d.toNat < 256)
    (h : lowerCaseChar c = lowerCaseChar d) : ∃ upper, recaseChar upper c = d := by
  rw [lowerCaseChar_of_lt c hc, lowerCaseChar_of_lt d hd, Option.some.injEq] at h
  unfold lowerLatin1 at h
  have hn := congrArg Char.toNat h
  rw [toNat_ofNat_of_lt _ (by have := lowerCode_lt _ hc; omega),
    toNat_ofNat_of_lt _ (by have := lowerCode_lt _ hd; omega)] at hn
  rcases eq_recase_of_lowerCode_eq _ _ hn with hu | hl
  · exact ⟨true, char_eq_of_toNat_eq _ _ (by rw [toNat_recaseChar true c hc]; simpa using hu.symm)⟩
  · exact ⟨false, char_eq_of_toNat_eq _ _ (by rw [toNat_recaseChar false c hc]; simpa using hl.symm)⟩

theorem recaseCode_cases (n m : Nat) (h : m = upperCode n ∨ m = lowerCode n) :
    m = n ∨ (65 ≤ n ∧ n ≤ 254 ∧ n ≠ 160 ∧ 65 ≤ m ∧ m ≤ 254 ∧ m ≠ 160) := by
  unfold upperCode lowerCode at h
  split_ifs at h <;> omega

theorem isWhiteSpace_of_letter_range (c : Char) (h1 : 65 ≤ c.toNat) (h2 : c.toNat ≤ 254)
    (h3 : c.toNat ≠ 160) : isWhiteSpace c = false := by
  rw [Bool.eq_false_iff]
  simp only [isWhiteSpace, List.contains, List.elem_eq_mem, List.mem_cons, List.mem_singleton,
    List.not_mem_nil, or_false, Bool.or_eq_true, decide_eq_true_eq, Bool.and_eq_true, ne_eq]
  omega

theorem isWhiteSpace_recaseChar (upper : Bool) (c : Char) :
    isWhiteSpace (recaseChar upper c) = isWhiteSpace c := by
  by_cases h : c.toNat < 256
  · have hn := toNat_recaseChar upper c h
    have hcode : (recaseChar upper c).toNat = upperCode c.toNat ∨
        (recaseChar upper c).toNat = lowerCode c.toNat := by
      cases upper
      · right
        simpa using hn
      · left
        simpa using hn
    rcases recaseCode_cases _ _ hcode with heq | ⟨h1, h2, h3, h4, h5, h6⟩
    · rw [char_eq_of_toNat_eq _ _ heq]
    · rw [isWhiteSpace_of_letter_range _ h4 h5 h6, isWhiteSpace_of_letter_range _ h1 h2 h3]
  · rw [recaseChar_of_ge upper c (by omega)]


theorem isLatin1_iff (s : String) : isLatin1 s = true ↔ ∀ c ∈ s.data, c.toNat < 256 := by
  simp [isLatin1, List.all_eq_true]

theorem lowerCaseChars_of_lt (cs : List Char) (h : ∀ c ∈ cs, c.toNat < 256) :
    lowerCaseChars cs = some (cs.map lowerLatin1) := by
  induction cs with
  | nil => rfl
  | cons c rest ih =>
    have h1 := lowerCaseChar_of_lt c (h c (List.mem_cons_self _ _))
    have h2 := ih (fun x hx => h x (List.mem_cons_of_mem _ hx))
    simp only [lowerCaseChars, h1, h2, List.map_cons]

theorem toLowerCase_of_isLatin1 (s : String) (h : isLatin1 s = true) :
    toLowerCase s = some (String.mk (s.data.map lowerLatin1)) := by
  simp only [toLowerCase, lowerCaseChars_of_lt s.data ((isLatin1_iff s).mp h), Option.map_some']

theorem lowerLatin1_eq_iff (c d : Char) (hc : c.toNat < 256) (hd : d.toNat < 256) :
    lowerLatin1 c = lowerLatin1 d ↔ lowerCaseChar c = lowerCaseChar d := by
  rw [lowerCaseChar_of_lt c hc, lowerCaseChar_of_lt d hd, Option.some.injEq]

theorem lowerLatin1_recaseChar (upper : Bool) (c : Char) (h : c.toNat < 256) :
    lowerLatin1 (recaseChar upper c) = lowerLatin1 c :=
  (lowerLatin1_eq_iff _ _ (toNat_recaseChar_lt upper c h) h).mpr
    (lowerCaseChar_recaseChar upper c h)

theorem recaseChars_lt (choices : List Bool) (cs : List Char) (h : ∀ c ∈ cs, c.toNat < 256) :
    ∀ c ∈ recaseChars choices cs, c.toNat < 256 := by
  induction cs generalizing choices with
  | nil =>
    cases choices <;> simp [recaseChars]
  | cons c rest ih =>
    cases choices with
    | nil => simpa [recaseChars] using h
    | cons u us =>
      intro x hx
      simp only [recaseChars, List.mem_cons] at hx
      rcases hx with rfl | hx
      · exact toNat_recaseChar_lt u c (h c (List.mem_cons_self _ _))
      · exact ih us (fun y hy => h y (List.mem_cons_of_mem _ hy)) x hx

theorem map_lowerLatin1_recaseChars (choices : List Bool) (cs : List Char)
    (h : ∀ c ∈ cs, c.toNat < 256) :
    (recaseChars choices cs).map lowerLatin1 = cs.map lowerLatin1 := by
  induction cs generalizing choices with
  | nil =>
    cases choices <;> simp [recaseChars]
  | cons c rest ih =>
    cases choices with
    | nil => simp [recaseChars]
    | cons u us =>
      simp only [recaseChars, List.map_cons]
      rw [lowerLatin1_recaseChar u c (h c (List.mem_cons_self _ _)),
        ih us (fun y hy => h y (List.mem_cons_of_mem _ hy))]

theorem exists_recaseChars_eq (cs ds : List Char) (hc : ∀ c ∈ cs, c.toNat < 256)
    (hd : ∀ d ∈ ds, d.toNat < 256) (h : cs.map lowerLatin1 = ds.map lowerLatin1) :
    ∃ choices, recaseChars choices cs = ds := by
  induction cs generalizing ds with
  | nil =>
    cases ds with
    | nil => exact ⟨[], rfl⟩
    | cons d rest => simp at h
  | cons c rest ih =>
    cases ds with
    | nil => simp at h
    | cons d ds =>
      simp only [List.map_cons, List.cons.injEq] at h
      have hc0 := hc c (List.mem_cons_self _ _)
      have hd0 := hd d (List.mem_cons_self _ _)
      obtain ⟨u, hu⟩ := exists_recaseChar_eq c d hc0 hd0
        ((lowerLatin1_eq_iff c d hc0 hd0).mp h.1)
      obtain ⟨us, hus⟩ := ih ds (fun y hy => hc y (List.mem_cons_of_mem _ hy))
        (fun y hy => hd y (List.mem_cons_of_mem _ hy)) h.2
      exact ⟨u :: us, by simp [recaseChars, hu, hus]⟩

theorem all_isWhiteSpace_recaseChars (choices : List Bool) (cs : List Char) :
    (∀ c ∈ recaseChars choices cs, isWhiteSpace c = true) ↔
      ∀ c ∈ cs, isWhiteSpace c = true := by
  induction cs generalizing choices with
  | nil =>
    cases choices <;> simp [recaseChars]
  | cons c rest ih =>
    cases choices with
    | nil => simp [recaseChars]
    | cons u us =>
      simp only [recaseChars, List.forall_mem_cons, isWhiteSpace_recaseChar, ih us]

theorem jsTrim_eq_empty_iff (s : String) :
    jsTrim s = "" ↔ ∀ c ∈ s.data, isWhiteSpace c = true := by
  have hdrop : (∀ c ∈ s.data.dropWhile isWhiteSpace, isWhiteSpace c = true) ↔
      ∀ c ∈ s.data, isWhiteSpace c = true := by
    constructor
    · intro h c hc
      rw [← List.takeWhile_append_dropWhile isWhiteSpace s.data] at hc
      rcases List.mem_append.mp hc with h1 | h2
      · exact List.mem_takeWhile_imp h1
      · exact h c h2
    · intro h c hc
      exact h c ((List.dropWhile_sublist _).subset hc)
  rw [← hdrop]
  unfold jsTrim
  rw [String.ext_iff]
  simp only [List.reverse_eq_nil_iff, List.dropWhile_eq_nil_iff, List.mem_reverse]

theorem jsTrim_recase (choices : List Bool) (s : String) :
    jsTrim (recase choices s) = "" ↔ jsTrim s = "" := by
  rw [jsTrim_eq_empty_iff, jsTrim_eq_empty_iff]
  exact all_isWhiteSpace_recaseChars choices s.data

theorem startsWithChars_iff (text start : List Char) :
    startsWithChars text start = true ↔ start <+: text := by
  induction text generalizing start with
  | nil =>
    cases start with
    | nil => simp [startsWithChars]
    | cons d ds => simp [startsWithChars]
  | cons c rest ih =>
    cases start with
    | nil => simp [startsWithChars]
    | cons d ds =>
      simp only [startsWithChars, Bool.and_eq_true, beq_iff_eq, ih, List.cons_prefix_cons]
      constructor <;> rintro ⟨h1, h2⟩ <;> exact ⟨h1.symm, h2⟩

theorem includesChars_iff (text search : List Char) :
    includesChars text search = true ↔ search <:+: text := by
  induction text with
  | nil =>
    simp [includesChars, List.isEmpty_iff]
  | cons c rest ih =>
    simp only [includesChars, Bool.or_eq_true, startsWithChars_iff, ih, List.infix_cons_iff]

/-- The description holds the filter text in some letter case exactly when its lower-case
form holds the lower-case form of the filter text. -/
theorem includes_lower_iff (text search : List Char) (ht : ∀ c ∈ text, c.toNat < 256)
    (hs : ∀ c ∈ search, c.toNat < 256) :
    includesChars (text.map lowerLatin1) (search.map lowerLatin1) = true ↔
      ∃ choices, includesChars text (recaseChars choices search) = true := by
  simp only [includesChars_iff]
  constructor
  · rintro ⟨pre, post, h⟩
    obtain ⟨l1, post', h1, h2, h3⟩ := List.map_eq_append_iff.mp h.symm
    obtain ⟨pre', mid, h4, h5, h6⟩ := List.map_eq_append_iff.mp h2
    have hmid : ∀ c ∈ mid, c.toNat < 256 := by
      intro c hc
      apply ht
      rw [h1, h4]
      simp [hc]
    obtain ⟨choices, hch⟩ := exists_recaseChars_eq search mid hs hmid h6.symm
    exact ⟨choices, pre', post', by rw [hch, h1, h4]⟩
  · rintro ⟨choices, pre, post, h⟩
    refine ⟨pre.map lowerLatin1, post.map lowerLatin1, ?_⟩
    rw [← h, List.map_append, List.map_append, map_lowerLatin1_recaseChars choices search hs]


theorem isLatin1_recase (choices : List Bool) (s : String) (h : isLatin1 s = true) :
    isLatin1 (recase choices s) = true :=
  (isLatin1_iff _).mpr (recaseChars_lt choices s.data ((isLatin1_iff s).mp h))

/-- On texts below U+0100 the filter loop keeps the photos whose lower-case description
holds the lower-case filter text. -/
theorem filterLoop_of_isLatin1 (filter : String) (photos : List Report)
    (hf : isLatin1 filter = true) (hp : ∀ p ∈ photos, isLatin1 p.description = true) :
    App.filterLoop filter photos = some (photos.filter (fun p =>
      includesChars (p.description.data.map lowerLatin1) (filter.data.map lowerLatin1))) := by
  induction photos with
  | nil => rfl
  | cons p rest ih =>
    have h1 := toLowerCase_of_isLatin1 p.description (hp p (List.mem_cons_self _ _))
    have h2 := toLowerCase_of_isLatin1 filter hf
    have h3 := ih (fun x hx => hp x (List.mem_cons_of_mem _ hx))
    simp only [App.filterLoop, App.matchesFilter, h1, h2, h3, jsIncludes, List.filter_cons]

/-! ## The claims on the upload form and the filter -/

/-- C17, counterexample: a PNG file of exactly 10 MB (10 * 1024 * 1024 bytes), which is
not less than 10 MB, is accepted: it becomes `formData.image` and no toast is shown.  A
PDF of 20 MB is rejected with the message about the file type, not the one about the
size. -/
theorem ten_megabyte_file_accepted :
    (UploadForm.handleFileSelect (some tenMegabytePng) UploadForm.initialState).formData.image =
      some tenMegabytePng ∧
    (UploadForm.handleFileSelect (some tenMegabytePng) UploadForm.initialState).toasts = [] ∧
    (UploadForm.handleFileSelect (some oversizedPdf) UploadForm.initialState).toasts =
      [.error "Please select a valid image file (JPEG, PNG, GIF, or WebP)"] := by
  decide

/-- C17, amended: `handleFileSelect` stores a file as `formData.image` exactly when its
type is one of the allowed image types and its size is at most 10 MB (10 * 1024 * 1024
bytes), and then shows no toast.  A file of an allowed type that is larger is rejected
with the message about the size, a file of another type with the message about the type,
whatever its size; a rejection leaves `formData` and `errors` unchanged. -/
theorem handleFileSelect_cases (file : File) (st : FormState) :
    (UploadForm.allowedTypes.contains file.type = true → file.size ≤ 10 * 1024 * 1024 →
      (UploadForm.handleFileSelect (some file) st).formData =
        { st.formData with image := some file } ∧
      (UploadForm.handleFileSelect (some file) st).toasts = st.toasts) ∧
    (UploadForm.allowedTypes.contains file.type = true → 10 * 1024 * 1024 < file.size →
      (UploadForm.handleFileSelect (some file) st).formData = st.formData ∧
      (UploadForm.handleFileSelect (some file) st).errors = st.errors ∧
      (UploadForm.handleFileSelect (some file) st).toasts =
        st.toasts ++ [.error "File size must be less than 10MB"]) ∧
    (UploadForm.allowedTypes.contains file.type = false →
      (UploadForm.handleFileSelect (some file) st).formData = st.formData ∧
      (UploadForm.handleFileSelect (some file) st).errors = st.errors ∧
      (UploadForm.handleFileSelect (some file) st).toasts =
        st.toasts ++ [.error "Please select a valid image file (JPEG, PNG, GIF, or WebP)"]) := by
  refine ⟨?_, ?_, ?_⟩
  · intro htype hsize
    have hle : ¬ file.size > UploadForm.maxSize := by
      simp only [UploadForm.maxSize]
      omega
    have hmem : file.type ∈ UploadForm.allowedTypes := by simpa using htype
    simp [UploadForm.handleFileSelect, hmem, hle]
  · intro htype hsize
    have hgt : file.size > UploadForm.maxSize := by
      simp only [UploadForm.maxSize]
      omega
    have hmem : file.type ∈ UploadForm.allowedTypes := by simpa using htype
    simp [UploadForm.handleFileSelect, hmem, hgt]
  · intro htype
    have hnot : file.type ∉ UploadForm.allowedTypes := by simpa using htype
    simp [UploadForm.handleFileSelect, hnot]

/-- C17, witness: a JPEG of 2 MB is stored, a PNG of 10 MB and one byte and a PDF are
rejected with their messages. -/
theorem handleFileSelect_cases_witness :
    ((UploadForm.handleFileSelect (some smallJpeg) UploadForm.initialState).formData =
        { UploadForm.initialState.formData with image := some smallJpeg } ∧
      (UploadForm.handleFileSelect (some smallJpeg) UploadForm.initialState).toasts =
        UploadForm.initialState.toasts) ∧
    (UploadForm.handleFileSelect (some oversizedPng) UploadForm.initialState).toasts =
      UploadForm.initialState.toasts ++ [.error "File size must be less than 10MB"] ∧
    (UploadForm.handleFileSelect (some oversizedPdf) UploadForm.initialState).toasts =
      UploadForm.initialState.toasts ++
        [.error "Please select a valid image file (JPEG, PNG, GIF, or WebP)"] :=
  ⟨(handleFileSelect_cases smallJpeg UploadForm.initialState).1 (by decide) (by decide),
    ((handleFileSelect_cases oversizedPng UploadForm.initialState).2.1 (by decide)
      (by decide)).2.2,
    ((handleFileSelect_cases oversizedPdf UploadForm.initialState).2.2 (by decide)).2.2⟩

/-- C18: `validateForm` returns true exactly when an image is selected, the trimmed
description has at least 10 characters (UTF-16 code units), the latitude text parses to a
number within [-1.5, -1.0] and the longitude text to a number within [36.5, 37.2].  The
errors object it stores has an entry for exactly the fields that fail, and when it
returns false `handleSubmit` stores those errors, sends no request, hands nothing to
`onUploadSuccess` and leaves `formData` as it is. -/
theorem validateForm_true_iff (api : ApiResponses) (st : FormState) :
    ((UploadForm.validateForm st.formData).2 = true ↔
      st.formData.image.isSome = true ∧
      10 ≤ jsLength (jsTrim st.formData.description) ∧
      (∃ x, parseFloat st.formData.latitude = .fin x ∧ -3 / 2 ≤ x ∧ x ≤ -1) ∧
      (∃ y, parseFloat st.formData.longitude = .fin y ∧ 73 / 2 ≤ y ∧ y ≤ 186 / 5)) ∧
    ((UploadForm.validateForm st.formData).1.image.isSome = true ↔
      st.formData.image = none) ∧
    ((UploadForm.validateForm st.formData).1.description.isSome = true ↔
      ¬ 10 ≤ jsLength (jsTrim st.formData.description)) ∧
    ((UploadForm.validateForm st.formData).1.latitude.isSome = true ↔
      ¬ ∃ x, parseFloat st.formData.latitude = .fin x ∧ -3 / 2 ≤ x ∧ x ≤ -1) ∧
    ((UploadForm.validateForm st.formData).1.longitude.isSome = true ↔
      ¬ ∃ y, parseFloat st.formData.longitude = .fin y ∧ 73 / 2 ≤ y ∧ y ≤ 186 / 5) ∧
    ((UploadForm.validateForm st.formData).2 = false →
      (UploadForm.handleSubmit api st).calls = [] ∧
      (UploadForm.handleSubmit api st).uploaded = none ∧
      (UploadForm.handleSubmit api st).state.formData = st.formData ∧
      (UploadForm.handleSubmit api st).state.errors = (UploadForm.validateForm st.formData).1 ∧
      (UploadForm.handleSubmit api st).state.toasts =
        st.toasts ++ [.error "Please fix the errors in the form"]) := by
  obtain ⟨himg, hdesc, hlat, hlng, hall⟩ := validateForm_spec st.formData
  simp only [UploadForm.NAIROBI_BOUNDS] at hlat hlng
  refine ⟨?_, ?_, ?_, ?_, ?_, ?_⟩
  · rw [hall, himg, hdesc, hlat, hlng]
  · rw [← Option.not_isSome_iff_eq_none, ← himg]
    cases (UploadForm.validateForm st.formData).1.image <;> simp
  · rw [← hdesc]
    cases (UploadForm.validateForm st.formData).1.description <;> simp
  · rw [← hlat]
    cases (UploadForm.validateForm st.formData).1.latitude <;> simp
  · rw [← hlng]
    cases (UploadForm.validateForm st.formData).1.longitude <;> simp
  · intro hfalse
    simp [UploadForm.handleSubmit, hfalse]

/-- C18, witness: the filled-in form validates and its submission sends the three
requests; the form with a short description and a latitude outside the bounds does not
validate and its submission sends none. -/
theorem validateForm_true_iff_witness :
    (UploadForm.validateForm validFormData).2 = true ∧
    (UploadForm.handleSubmit acceptingApi
      { UploadForm.initialState with formData := validFormData }).calls =
      [.getPresignedUrl "spot.jpg" "image/jpeg",
        .uploadToS3 "https://bucket.example.org/put" smallJpeg,
        .createPhoto "photos/1.jpg" "Plastic bottles at the stop" (.fin (-13 / 10))
          (.fin (1841 / 50))] ∧
    (UploadForm.handleSubmit acceptingApi
      { UploadForm.initialState with formData := invalidFormData }).calls = [] ∧
    (UploadForm.handleSubmit acceptingApi
      { UploadForm.initialState with formData := invalidFormData }).state.errors =
      { image := none, description := some "Description must be at least 10 characters",
        latitude := some "Latitude must be within Nairobi bounds (-1.5 to -1.0)",
        longitude := none } := by
  have hvalid := (validateForm_true_iff acceptingApi
    { UploadForm.initialState with formData := validFormData }).1
  have hinvalid := (validateForm_true_iff acceptingApi
    { UploadForm.initialState with formData := invalidFormData }).2.2.2.2.2 (by decide!)
  refine ⟨hvalid.mpr ⟨by decide, by decide, ⟨-13 / 10, by decide!, by norm_num, by norm_num⟩,
    ⟨1841 / 50, by decide!, by norm_num, by norm_num⟩⟩, by decide!, hinvalid.1, ?_⟩
  rw [hinvalid.2.2.2.1]
  decide!

/-- C19, counterexample: with the filter text `straße` the photo described as
`Kirchstraße` is found, and it is no longer found when its description is put in upper
case, `KIRCHSTRASSE`: the lower-case form `kirchstrasse` of that text does not hold
`straße`. -/
theorem sharp_s_upper_case_not_found :
    toUpperCase "Kirchstraße" = some "KIRCHSTRASSE" ∧
    App.filterPhotos "straße" [strasseReport] = some [strasseReport] ∧
    App.filterPhotos "straße" [{ strasseReport with description := "KIRCHSTRASSE" }] =
      some [] := by
  decide!

/-- C19, amended: a blank filter gives the whole list.  On texts of code points up to
U+00FF, with a filter text that is not blank, the list `App` stores in `filteredPhotos`
consists of exactly the photos whose description contains the filter text in some letter
case, in their original order, and is the same when the letter case of the filter text
or of any description is changed; a change of letter case puts a letter in its upper-case
or lower-case form where that form is a single code point up to U+00FF (so not ß to
SS). -/
theorem filterPhotos_case_insensitive (filter : String) (photos : List Report) :
    (∀ blank : String, jsTrim blank = "" → App.filterPhotos blank photos = some photos) ∧
    (isLatin1 filter = true → (∀ p ∈ photos, isLatin1 p.description = true) →
      jsTrim filter ≠ "" →
      ∃ result, App.filterPhotos filter photos = some result ∧
        (∀ photo, photo ∈ result ↔ photo ∈ photos ∧
          ∃ choices, jsIncludes photo.description (recase choices filter) = true) ∧
        (∀ keep : Report → Bool,
          (∀ photo ∈ photos, keep photo = true ↔
            ∃ choices, jsIncludes photo.description (recase choices filter) = true) →
          result = photos.filter keep) ∧
        (∀ choices : List Bool, App.filterPhotos (recase choices filter) photos = some result) ∧
        ∀ choices : Report → List Bool,
          App.filterPhotos filter (photos.map (Report.recaseDescription choices)) =
            some (result.map (Report.recaseDescription choices))) := by
  constructor
  · intro blank hblank
    simp only [App.filterPhotos, if_pos hblank]
  · intro hfilter hphotos hnonblank
    have hspec : ∀ photo ∈ photos,
        includesChars (photo.description.data.map lowerLatin1)
          (filter.data.map lowerLatin1) = true ↔
        ∃ choices, jsIncludes photo.description (recase choices filter) = true := by
      intro photo hphoto
      exact includes_lower_iff photo.description.data filter.data
        ((isLatin1_iff _).mp (hphotos photo hphoto)) ((isLatin1_iff _).mp hfilter)
    refine ⟨photos.filter (fun p => includesChars (p.description.data.map lowerLatin1)
      (filter.data.map lowerLatin1)), ?_, ?_, ?_, ?_, ?_⟩
    · simp only [App.filterPhotos, if_neg hnonblank]
      exact filterLoop_of_isLatin1 filter photos hfilter hphotos
    · intro photo
      rw [List.mem_filter]
      constructor
      · rintro ⟨h1, h2⟩
        exact ⟨h1, (hspec photo h1).mp h2⟩
      · rintro ⟨h1, h2⟩
        exact ⟨h1, (hspec photo h1).mpr h2⟩
    · intro keep hkeep
      apply List.filter_congr
      intro photo hphoto
      rw [Bool.eq_iff_iff, hspec photo hphoto, hkeep photo hphoto]
    · intro choices
      have hnb : jsTrim (recase choices filter) ≠ "" := by
        rw [ne_eq, jsTrim_recase]
        exact hnonblank
      simp only [App.filterPhotos, if_neg hnb]
      rw [filterLoop_of_isLatin1 _ photos (isLatin1_recase choices filter hfilter) hphotos]
      simp only [recase, map_lowerLatin1_recaseChars choices filter.data
        ((isLatin1_iff _).mp hfilter)]
    · intro choices
      simp only [App.filterPhotos, if_neg hnonblank]
      rw [filterLoop_of_isLatin1 filter _ hfilter]
      · rw [List.filter_map]
        congr 2
        apply List.filter_congr
        intro photo hphoto
        simp only [Function.comp, Report.recaseDescription, recase]
        rw [map_lowerLatin1_recaseChars _ _ ((isLatin1_iff _).mp (hphotos photo hphoto))]
      · intro p hp
        obtain ⟨q, hq, rfl⟩ := List.mem_map.mp hp
        exact isLatin1_recase _ _ (hphotos q hq)

/-- C19, witness: the filter texts `drain` and `DRAIN` on the example reports, and the
example reports with their descriptions in upper case: the report about the blocked drain
is selected each time; the filter of three spaces gives the whole list. -/
theorem filterPhotos_case_insensitive_witness :
    App.filterPhotos "drain" [exampleReport1, exampleReport2, exampleReport3] =
      some [exampleReport1] ∧
    App.filterPhotos "DRAIN" [exampleReport1, exampleReport2, exampleReport3] =
      some [exampleReport1] ∧
    App.filterPhotos "drain"
        ([exampleReport1, exampleReport2, exampleReport3].map
          (Report.recaseDescription (fun _ => List.replicate 13 true))) =
      some [{ exampleReport1 with description := "BLOCKED DRAIN" }] ∧
    App.filterPhotos "   " [exampleReport1, exampleReport2, exampleReport3] =
      some [exampleReport1, exampleReport2, exampleReport3] := by
  obtain ⟨hblank, hrest⟩ := filterPhotos_case_insensitive "drain"
    [exampleReport1, exampleReport2, exampleReport3]
  obtain ⟨result, hresult, _, _, hfilter, hdesc⟩ := hrest (by decide) (by decide) (by decide)
  have hconcrete : App.filterPhotos "drain" [exampleReport1, exampleReport2, exampleReport3] =
      some [exampleReport1] := by
    decide!
  have hr : result = [exampleReport1] := by
    rw [hconcrete] at hresult
    exact (Option.some.inj hresult).symm
  subst hr
  refine ⟨hconcrete, ?_, ?_, hblank "   " (by decide)⟩
  · have h := hfilter [true, true, true, true, true]
    have hrec : recase [true, true, true, true, true] "drain" = "DRAIN" := by decide
    rw [hrec] at h
    exact h
  · have hd : recase (List.replicate 13 true) "blocked drain" = "BLOCKED DRAIN" := by decide
    rw [hdesc]
    simp only [List.map, Report.recaseDescription]
    rw [show exampleReport1.description = "blocked drain" from rfl, hd]

/-- C20: for coordinate texts that parse to the numbers x and y, `validateForm` stores no
latitude error and no longitude error exactly when the point (x, y) lies within the
maximum bounds of the map; the bounds of the form are the corners of `NAIROBI_BOUNDS` of
the map. -/
theorem form_bounds_eq_map_bounds (fd : FormData) (x y : ℚ)
    (hlat : parseFloat fd.latitude = .fin x) (hlng : parseFloat fd.longitude = .fin y) :
    (((UploadForm.validateForm fd).1.latitude = none ∧
        (UploadForm.validateForm fd).1.longitude = none) ↔
      NAIROBI_BOUNDS.contains ⟨x, y⟩) ∧
    NAIROBI_BOUNDS.sw = ⟨UploadForm.NAIROBI_BOUNDS.lat.min, UploadForm.NAIROBI_BOUNDS.lng.min⟩ ∧
    NAIROBI_BOUNDS.ne = ⟨UploadForm.NAIROBI_BOUNDS.lat.max, UploadForm.NAIROBI_BOUNDS.lng.max⟩ := by
  obtain ⟨_, _, h1, h2, _⟩ := validateForm_spec fd
  refine ⟨?_, rfl, rfl⟩
  rw [h1, h2, hlat, hlng]
  simp only [JsNumber.fin.injEq, exists_eq_left', LatLngBounds.contains, NAIROBI_BOUNDS,
    UploadForm.NAIROBI_BOUNDS]
  constructor
  · rintro ⟨⟨a, b⟩, ⟨c, d⟩⟩
    exact ⟨a, b, c, d⟩
  · rintro ⟨a, b, c, d⟩
    exact ⟨⟨a, b⟩, ⟨c, d⟩⟩

/-- C20, witness: the coordinates stored for (-1.30, 36.82) pass the checks of the form
and lie within the bounds of the map; those of Mombasa fail both. -/
theorem form_bounds_eq_map_bounds_witness :
    ((UploadForm.validateForm validFormData).1.latitude = none ∧
      (UploadForm.validateForm validFormData).1.longitude = none) ∧
    NAIROBI_BOUNDS.contains ⟨-13 / 10, 1841 / 50⟩ ∧
    ¬ NAIROBI_BOUNDS.contains ⟨-81 / 20, 1841 / 50⟩ ∧
    ¬ ((UploadForm.validateForm invalidFormData).1.latitude = none ∧
      (UploadForm.validateForm invalidFormData).1.longitude = none) := by
  have h1 := (form_bounds_eq_map_bounds validFormData (-13 / 10) (1841 / 50)
    (by decide!) (by decide!)).1
  have h2 := (form_bounds_eq_map_bounds invalidFormData (-81 / 20) (1841 / 50)
    (by decide!) (by decide!)).1
  have hin : NAIROBI_BOUNDS.contains ⟨-13 / 10, 1841 / 50⟩ := by decide!
  have hout : ¬ NAIROBI_BOUNDS.contains ⟨-81 / 20, 1841 / 50⟩ := by decide!
  exact ⟨h1.mpr hin, hin, hout, fun h => hout (h2.mp h)⟩

/-! ## The claim on the modal state -/

/-- A step keeps the modal closed or a photo selected, from any state. -/
theorem step_open_only_with_photo (s : AppState) (step : AppStep) :
    (App.step s step).isModalOpen = true → (App.step s step).selectedPhoto.isSome = true := by
  cases step with
  | markerClick photo => simp [App.step, App.handleMarkerClick, App.setIsModalOpen,
      App.setSelectedPhoto]
  | modalClose => simp [App.step, App.handleModalClose, App.setIsModalOpen,
      App.setSelectedPhoto]

/-- A sequence of steps keeps the invariant that an open modal has a photo. -/
theorem run_open_only_with_photo (steps : List AppStep) :
    ∀ s : AppState, (s.isModalOpen = true → s.selectedPhoto.isSome = true) →
      (App.run steps s).isModalOpen = true → (App.run steps s).selectedPhoto.isSome = true := by
  induction steps with
  | nil =>
    intro s hs
    exact hs
  | cons step rest ih =>
    intro s _
    exact ih (App.step s step) (step_open_only_with_photo s step)

/-- C21: in every state of `App` reached from the initial state by a sequence of
`handleMarkerClick` calls with a report and `handleModalClose` calls, the modal is open
only if a photo is selected, so `PhotoModal` renders exactly when `isModalOpen` is true;
the same holds between the two setter calls of either callback.  From any state,
`handleModalClose` ends with the modal closed and no photo selected, `handleMarkerClick`
with a report ends with the modal open on that report, and neither changes another part
of the state. -/
theorem modal_open_only_with_photo (steps : List AppStep) (s : AppState) (photo : Report) :
    ((App.run steps App.initialState).isModalOpen = true →
      (App.run steps App.initialState).selectedPhoto.isSome = true) ∧
    PhotoModal.renders (App.run steps App.initialState).selectedPhoto
        (App.run steps App.initialState).isModalOpen =
      (App.run steps App.initialState).isModalOpen ∧
    ((App.setSelectedPhoto (some photo) (App.run steps App.initialState)).isModalOpen = true →
      (App.setSelectedPhoto (some photo)
        (App.run steps App.initialState)).selectedPhoto.isSome = true) ∧
    ((App.setIsModalOpen false (App.run steps App.initialState)).isModalOpen = true →
      (App.setIsModalOpen false
        (App.run steps App.initialState)).selectedPhoto.isSome = true) ∧
    App.handleModalClose s = { s with isModalOpen := false, selectedPhoto := none } ∧
    (App.handleModalClose s).isModalOpen = false ∧
    (App.handleModalClose s).selectedPhoto = none ∧
    App.handleMarkerClick (some photo) s =
      { s with isModalOpen := true, selectedPhoto := some photo } ∧
    (App.handleMarkerClick (some photo) s).isModalOpen = true ∧
    (App.handleMarkerClick (some photo) s).selectedPhoto = some photo := by
  have hinv := run_open_only_with_photo steps App.initialState
    (by simp [App.initialState])
  refine ⟨hinv, ?_, by simp [App.setSelectedPhoto], by simp [App.setIsModalOpen],
    rfl, rfl, rfl, rfl, rfl, rfl⟩
  cases hopen : (App.run steps App.initialState).isModalOpen with
  | false => simp [PhotoModal.renders]
  | true =>
    have hsome := hinv hopen
    simp [PhotoModal.renders, hsome]

/-- C21, witness: a click on the first example report, a click on the second, a close and
a click on the first again leave the modal open on the first report; a close after that
leaves it closed with no photo. -/
theorem modal_open_only_with_photo_witness :
    (App.run [.markerClick exampleReport1, .markerClick exampleReport2, .modalClose,
      .markerClick exampleReport1] App.initialState).selectedPhoto = some exampleReport1 ∧
    (App.run [.markerClick exampleReport1, .markerClick exampleReport2, .modalClose,
      .markerClick exampleReport1] App.initialState).isModalOpen = true ∧
    PhotoModal.renders
      (App.run [.markerClick exampleReport1, .markerClick exampleReport2, .modalClose,
        .markerClick exampleReport1] App.initialState).selectedPhoto
      (App.run [.markerClick exampleReport1, .markerClick exampleReport2, .modalClose,
        .markerClick exampleReport1] App.initialState).isModalOpen = true ∧
    (App.handleModalClose
      (App.run [.markerClick exampleReport1, .markerClick exampleReport2, .modalClose,
        .markerClick exampleReport1] App.initialState)).isModalOpen = false ∧
    (App.handleModalClose
      (App.run [.markerClick exampleReport1, .markerClick exampleReport2, .modalClose,
        .markerClick exampleReport1] App.initialState)).selectedPhoto = none := by
  have h := modal_open_only_with_photo
    [.markerClick exampleReport1, .markerClick exampleReport2, .modalClose,
      .markerClick exampleReport1]
    (App.run [.markerClick exampleReport1, .markerClick exampleReport2, .modalClose,
      .markerClick exampleReport1] App.initialState) exampleReport1
  have hopen : (App.run [.markerClick exampleReport1, .markerClick exampleReport2,
      .modalClose, .markerClick exampleReport1] App.initialState).isModalOpen = true := rfl
  exact ⟨rfl, hopen, h.2.1.trans hopen, h.2.2.2.2.2.1, h.2.2.2.2.2.2.1⟩

end DirtyNairobi
